import Mathlib

/-!
Verification of the bitcoin_de Trading API v4 SDK core
(`src/bitcoin_de_trading_api_sdk_v4/`): the request signer
(`generate_signature`), the request builder/dispatcher (`do_request`,
`build_url_path`), the method registry (`METHOD_SETTINGS`), the error model
(`errors.rs`) and the response decoding layer.

Shallow embedding conventions:
* Rust `String`/`&str` become Lean `String`; byte slices become `List Nat`
  with every element below 256.
* `HashMap<&str, String>` becomes an association list `List (String × String)`.
  Rust hash maps are unordered, so list order models one iteration order;
  theorems that depend on order-insensitivity take an explicit permutation
  hypothesis.
* Machine integers are `Nat` reduced modulo 2^32 where overflow matters.
* Fallible Rust code (`Result<_, Error>`) becomes `Except Error _`.
* MD5, SHA-256 and HMAC-SHA256 (the `md5`, `sha2` and `hmac` crates) are
  implemented in full so that signatures are computed, not stubbed.
-/

set_option maxRecDepth 100000

namespace BitcoinDe

/-! ### Bytes, 32-bit words, hex, UTF-8 -/

/-- Truncate to a 32-bit word. -/
def w32 (n : Nat) : Nat := n &&& 0xffffffff

/-- Rotate a 32-bit word left by `r` bits. -/
def rotl32 (x r : Nat) : Nat := w32 ((x <<< r) ||| (x >>> (32 - r)))

/-- Rotate a 32-bit word right by `r` bits. -/
def rotr32 (x r : Nat) : Nat := w32 ((x >>> r) ||| (x <<< (32 - r)))

/-- Bitwise complement within 32 bits. -/
def not32 (x : Nat) : Nat := 0xffffffff ^^^ x

/-- Lowercase hex digit for `n % 16` (0-9 then a-f). -/
def hexDigitChar (n : Nat) : Char :=
  if n % 16 < 10 then Char.ofNat (48 + n % 16) else Char.ofNat (87 + n % 16)

/-- Two lowercase hex characters for one byte (model of `hex::encode`,
which always produces lowercase output). -/
def byteToHexChars (b : Nat) : List Char :=
  [hexDigitChar ((b / 16) % 16), hexDigitChar (b % 16)]

/-- Lowercase hex string of a byte list (model of `hex::encode`). -/
def hexOfBytes (bs : List Nat) : String :=
  String.mk (bs.flatMap byteToHexChars)

/-- UTF-8 encoding of one Unicode scalar value. -/
def utf8EncodeChar (c : Char) : List Nat :=
  let n := c.toNat
  if n < 0x80 then [n]
  else if n < 0x800 then
    [0xC0 ||| (n >>> 6), 0x80 ||| (n &&& 0x3F)]
  else if n < 0x10000 then
    [0xE0 ||| (n >>> 12), 0x80 ||| ((n >>> 6) &&& 0x3F), 0x80 ||| (n &&& 0x3F)]
  else
    [0xF0 ||| (n >>> 18), 0x80 ||| ((n >>> 12) &&& 0x3F),
     0x80 ||| ((n >>> 6) &&& 0x3F), 0x80 ||| (n &&& 0x3F)]

/-- UTF-8 bytes of a string (model of Rust `str::as_bytes`). -/
def utf8Bytes (s : String) : List Nat := s.data.flatMap utf8EncodeChar

/-- Big-endian 4-byte groups to 32-bit words. -/
def beWords : List Nat → List Nat
  | b0 :: b1 :: b2 :: b3 :: rest =>
      (((((b0 <<< 8) ||| b1) <<< 8 ||| b2) <<< 8) ||| b3) :: beWords rest
  | _ => []

/-- Little-endian 4-byte groups to 32-bit words. -/
def leWords : List Nat → List Nat
  | b0 :: b1 :: b2 :: b3 :: rest =>
      (b0 ||| (b1 <<< 8) ||| (b2 <<< 16) ||| (b3 <<< 24)) :: leWords rest
  | _ => []

/-- Big-endian byte rendering of a 32-bit word. -/
def beBytes (wrd : Nat) : List Nat :=
  [(wrd >>> 24) &&& 255, (wrd >>> 16) &&& 255, (wrd >>> 8) &&& 255, wrd &&& 255]

/-- Little-endian byte rendering of a 32-bit word. -/
def leBytes (wrd : Nat) : List Nat :=
  [wrd &&& 255, (wrd >>> 8) &&& 255, (wrd >>> 16) &&& 255, (wrd >>> 24) &&& 255]

/-- Little-endian 8-byte rendering of a 64-bit quantity. -/
def le64Bytes (n : Nat) : List Nat :=
  [n &&& 255, (n >>> 8) &&& 255, (n >>> 16) &&& 255, (n >>> 24) &&& 255,
   (n >>> 32) &&& 255, (n >>> 40) &&& 255, (n >>> 48) &&& 255, (n >>> 56) &&& 255]

/-- Big-endian 8-byte rendering of a 64-bit quantity. -/
def be64Bytes (n : Nat) : List Nat :=
  [(n >>> 56) &&& 255, (n >>> 48) &&& 255, (n >>> 40) &&& 255, (n >>> 32) &&& 255,
   (n >>> 24) &&& 255, (n >>> 16) &&& 255, (n >>> 8) &&& 255, n &&& 255]

/-- Merkle–Damgard padding shared by MD5 and SHA-256: append 0x80, zeros up to
56 mod 64, then the 8-byte bit length (rendered by `lenBytes`). -/
def mdPad (lenBytes : Nat → List Nat) (msg : List Nat) : List Nat :=
  let l := msg.length
  let zeros := (119 - l % 64) % 64
  msg ++ [0x80] ++ List.replicate zeros 0 ++ lenBytes (w32 (8 * l) ||| (((8 * l) >>> 32) <<< 32))

/-- Split into 64-byte blocks; `fuel` bounds the recursion depth and any value
of at least `l.length` blocks suffices. -/
def chunks64 : Nat → List Nat → List (List Nat)
  | 0, _ => []
  | _, [] => []
  | fuel + 1, l => l.take 64 :: chunks64 fuel (l.drop 64)

/-! ### MD5 (model of the `md5` crate) -/

/-- MD5 round constants: floor(abs(sin(i+1)) * 2^32). -/
def md5K : List Nat :=
  [0xd76aa478, 0xe8c7b756, 0x242070db, 0xc1bdceee, 0xf57c0faf, 0x4787c62a, 0xa8304613, 0xfd469501,
   0x698098d8, 0x8b44f7af, 0xffff5bb1, 0x895cd7be, 0x6b901122, 0xfd987193, 0xa679438e, 0x49b40821,
   0xf61e2562, 0xc040b340, 0x265e5a51, 0xe9b6c7aa, 0xd62f105d, 0x02441453, 0xd8a1e681, 0xe7d3fbc8,
   0x21e1cde6, 0xc33707d6, 0xf4d50d87, 0x455a14ed, 0xa9e3e905, 0xfcefa3f8, 0x676f02d9, 0x8d2a4c8a,
   0xfffa3942, 0x8771f681, 0x6d9d6122, 0xfde5380c, 0xa4beea44, 0x4bdecfa9, 0xf6bb4b60, 0xbebfbc70,
   0x289b7ec6, 0xeaa127fa, 0xd4ef3085, 0x04881d05, 0xd9d4d039, 0xe6db99e5, 0x1fa27cf8, 0xc4ac5665,
   0xf4292244, 0x432aff97, 0xab9423a7, 0xfc93a039, 0x655b59c3, 0x8f0ccc92, 0xffeff47d, 0x85845dd1,
   0x6fa87e4f, 0xfe2ce6e0, 0xa3014314, 0x4e0811a1, 0xf7537e82, 0xbd3af235, 0x2ad7d2bb, 0xeb86d391]

/-- MD5 per-round left-rotation amounts. -/
def md5S : List Nat :=
  [7, 12, 17, 22, 7, 12, 17, 22, 7, 12, 17, 22, 7, 12, 17, 22,
   5, 9, 14, 20, 5, 9, 14, 20, 5, 9, 14, 20, 5, 9, 14, 20,
   4, 11, 16, 23, 4, 11, 16, 23, 4, 11, 16, 23, 4, 11, 16, 23,
   6, 10, 15, 21, 6, 10, 15, 21, 6, 10, 15, 21, 6, 10, 15, 21]

/-- MD5 working state. -/
structure Md5State where
  a : Nat
  b : Nat
  c : Nat
  d : Nat
deriving Repr, DecidableEq

/-- One MD5 round `i` (0-63) over message words `m`. -/
def md5Round (m : List Nat) (st : Md5State) (i : Nat) : Md5State :=
  let f :=
    if i < 16 then (st.b &&& st.c) ||| (not32 st.b &&& st.d)
    else if i < 32 then (st.d &&& st.b) ||| (not32 st.d &&& st.c)
    else if i < 48 then st.b ^^^ st.c ^^^ st.d
    else st.c ^^^ (st.b ||| not32 st.d)
  let g :=
    if i < 16 then i
    else if i < 32 then (5 * i + 1) % 16
    else if i < 48 then (3 * i + 5) % 16
    else (7 * i) % 16
  let tmp := w32 (st.a + f + md5K.getD i 0 + m.getD g 0)
  let nb := w32 (st.b + rotl32 tmp (md5S.getD i 0))
  { a := st.d, b := nb, c := st.b, d := st.c }

/-- MD5 compression of one 64-byte block. -/
def md5Block (st : Md5State) (block : List Nat) : Md5State :=
  let m := leWords block
  let e := (List.range 64).foldl (md5Round m) st
  { a := w32 (st.a + e.a), b := w32 (st.b + e.b),
    c := w32 (st.c + e.c), d := w32 (st.d + e.d) }

/-- MD5 digest (16 bytes) of a byte list. -/
def md5Bytes (msg : List Nat) : List Nat :=
  let padded := mdPad le64Bytes msg
  let st := (chunks64 (padded.length + 1) padded).foldl md5Block
    { a := 0x67452301, b := 0xefcdab89, c := 0x98badcfe, d := 0x10325476 }
  leBytes st.a ++ leBytes st.b ++ leBytes st.c ++ leBytes st.d

/-- Lowercase hex MD5 of a byte list (model of
`hex::encode(md5::compute(bytes).0)`). -/
def md5Hex (msg : List Nat) : String := hexOfBytes (md5Bytes msg)

/-! ### SHA-256 and HMAC-SHA256 (models of the `sha2` and `hmac` crates) -/

/-- SHA-256 round constants (FIPS 180-4): fractional parts of the cube roots
of the first 64 primes, as 32-bit words written in decimal; the first entry
is 0x428a2f98 and the last is 0xc67178f2. The digests of the empty string and
of abc are checked against the FIPS test vectors below. -/
def sha256K : List Nat :=
  [1116352408, 1899447441, 3049323471, 3921009573, 961987163, 1508970993, 2453635748, 2870763221,
   3624381080, 310598401, 607225278, 1426881987, 1925078388, 2162078206, 2614888103, 3248222580,
   3835390401, 4022224774, 264347078, 604807628, 770255983, 1249150122, 1555081692, 1996064986,
   2554220882, 2821834349, 2952996808, 3210313671, 3336571891, 3584528711, 113926993, 338241895,
   666307205, 773529912, 1294757372, 1396182291, 1695183700, 1986661051, 2177026350, 2456956037,
   2730485921, 2820302411, 3259730800, 3345764771, 3516065817, 3600352804, 4094571909, 275423344,
   430227734, 506948616, 659060556, 883997877, 958139571, 1322822218, 1537002063, 1747873779,
   1955562222, 2024104815, 2227730452, 2361852424, 2428436474, 2756734187, 3204031479, 3329325298]

/-- SHA-256 working state (eight 32-bit words). -/
structure Sha256State where
  a : Nat
  b : Nat
  c : Nat
  d : Nat
  e : Nat
  f : Nat
  g : Nat
  h : Nat
deriving Repr, DecidableEq

/-- SHA-256 initial hash value: fractional parts of square roots of the first
eight primes. -/
def sha256Init : Sha256State :=
  { a := 0x6a09e667, b := 0xbb67ae85, c := 0x3c6ef372, d := 0xa54ff53a,
    e := 0x510e527f, f := 0x9b05688c, g := 0x1f83d9ab, h := 0x5be0cd19 }

/-- Extend 16 message words to the 64-word SHA-256 schedule. -/
def sha256Schedule (w16 : List Nat) : List Nat :=
  (List.range 48).foldl
    (fun w _ =>
      let t := w.length
      let s0 :=
        rotr32 (w.getD (t - 15) 0) 7 ^^^ rotr32 (w.getD (t - 15) 0) 18 ^^^
          (w.getD (t - 15) 0 >>> 3)
      let s1 :=
        rotr32 (w.getD (t - 2) 0) 17 ^^^ rotr32 (w.getD (t - 2) 0) 19 ^^^
          (w.getD (t - 2) 0 >>> 10)
      w ++ [w32 (w.getD (t - 16) 0 + s0 + w.getD (t - 7) 0 + s1)])
    w16

/-- One SHA-256 round with round constant `k` and schedule word `wt`. -/
def sha256Round (st : Sha256State) (kw : Nat × Nat) : Sha256State :=
  let s1 := rotr32 st.e 6 ^^^ rotr32 st.e 11 ^^^ rotr32 st.e 25
  let ch := (st.e &&& st.f) ^^^ (not32 st.e &&& st.g)
  let t1 := w32 (st.h + s1 + ch + kw.1 + kw.2)
  let s0 := rotr32 st.a 2 ^^^ rotr32 st.a 13 ^^^ rotr32 st.a 22
  let maj := (st.a &&& st.b) ^^^ (st.a &&& st.c) ^^^ (st.b &&& st.c)
  let t2 := w32 (s0 + maj)
  { a := w32 (t1 + t2), b := st.a, c := st.b, d := st.c,
    e := w32 (st.d + t1), f := st.e, g := st.f, h := st.g }

/-- SHA-256 compression of one 64-byte block. -/
def sha256Block (st : Sha256State) (block : List Nat) : Sha256State :=
  let w := sha256Schedule (beWords block)
  let e := (sha256K.zip w).foldl sha256Round st
  { a := w32 (st.a + e.a), b := w32 (st.b + e.b), c := w32 (st.c + e.c),
    d := w32 (st.d + e.d), e := w32 (st.e + e.e), f := w32 (st.f + e.f),
    g := w32 (st.g + e.g), h := w32 (st.h + e.h) }

/-- SHA-256 digest (32 bytes) of a byte list. -/
def sha256Bytes (msg : List Nat) : List Nat :=
  let padded := mdPad be64Bytes msg
  let st := (chunks64 (padded.length + 1) padded).foldl sha256Block sha256Init
  beBytes st.a ++ beBytes st.b ++ beBytes st.c ++ beBytes st.d ++
    beBytes st.e ++ beBytes st.f ++ beBytes st.g ++ beBytes st.h

/-- HMAC-SHA256 per RFC 2104 over a 64-byte block size, exactly as implemented
by `Hmac<Sha256>`: a key longer than 64 bytes is first hashed, any key is then
zero-padded to 64 bytes; every key length is accepted. -/
def hmacSha256 (key msg : List Nat) : List Nat :=
  let k0 := if key.length > 64 then sha256Bytes key else key
  let k := k0 ++ List.replicate (64 - k0.length) 0
  let ipadded := k.map (fun b => b ^^^ 0x36)
  let opadded := k.map (fun b => b ^^^ 0x5c)
  sha256Bytes (opadded ++ sha256Bytes (ipadded ++ msg))

/-! ### Form URL-encoding (model of `serde_urlencoded::to_string`, which uses
`url::form_urlencoded`: space becomes `+`, ASCII alphanumerics and `*-._` are
kept, every other byte is percent-encoded with uppercase hex) -/

/-- Bytes kept verbatim by `form_urlencoded` byte serialization. -/
def formByteAllowed (b : Nat) : Bool :=
  (48 ≤ b && b ≤ 57) || (65 ≤ b && b ≤ 90) || (97 ≤ b && b ≤ 122) ||
    b == 42 || b == 45 || b == 46 || b == 95

/-- Uppercase hex digit for `n % 16`, as used inside percent escapes. -/
def upperHexChar (n : Nat) : Char :=
  let m := n % 16
  if m < 10 then Char.ofNat (48 + m) else Char.ofNat (55 + m)

/-- `form_urlencoded` serialization of one byte. -/
def formEncodeByte (b : Nat) : List Char :=
  if b == 32 then [Char.ofNat 43]
  else if formByteAllowed b then [Char.ofNat b]
  else [Char.ofNat 37, upperHexChar ((b / 16) % 16), upperHexChar (b % 16)]

/-- `form_urlencoded` serialization of one string component. -/
def formEncodeStr (s : String) : String :=
  String.mk ((utf8Bytes s).flatMap formEncodeByte)

/-- `serde_urlencoded::to_string` on a sequence of string pairs:
`k1=v1&k2=v2&...` with both components form-encoded; empty input yields
the empty string. -/
def formUrlEncodePairs (pairs : List (String × String)) : String :=
  String.intercalate "&"
    (pairs.map (fun kv => formEncodeStr kv.1 ++ "=" ++ formEncodeStr kv.2))

/-! ### Sorting body parameters by key

Model of `sorted_params.sort_by_key(|(key, _)| *key)` (a stable sort by the
`&str` key). Rust compares `&str` byte-wise on UTF-8; that order coincides
with the code-point lexicographic order of Lean strings, which is used here. -/

/-- Lexicographic strict comparison of character lists by code point. On the
code points of valid Unicode strings this coincides with the byte-wise
comparison of their UTF-8 encodings, which is what `Ord` on Rust `&str`
compares. -/
def charListLt : List Char → List Char → Bool
  | [], [] => false
  | [], _ :: _ => true
  | _ :: _, [] => false
  | a :: as2, b :: bs =>
    if a < b then true
    else if b < a then false
    else charListLt as2 bs

/-- Strict byte-wise string order (Rust `&str` `lt`). -/
def strLtB (a b : String) : Bool := charListLt a.data b.data

/-- Byte-wise string order (Rust `&str` `le`). -/
def strLeB (a b : String) : Bool := !strLtB b a

/-- Stable insertion of a pair into a key-sorted list. -/
def insertByKey (p : String × String) : List (String × String) → List (String × String)
  | [] => [p]
  | q :: t => if strLeB p.1 q.1 then p :: q :: t else q :: insertByKey p t

/-- Stable sort of string pairs by ascending key. -/
def sortByKey : List (String × String) → List (String × String)
  | [] => []
  | p :: t => insertByKey p (sortByKey t)

/-! ### Data model (`config.rs`, `errors.rs`, `method_settings.rs`) -/

/-- `ApiCredentials` from `config.rs`. -/
structure ApiCredentials where
  api_key : String
  api_secret : String
deriving Repr, DecidableEq

/-- `ApiErrorBody` from `errors.rs`: parallel lists of numeric codes (`i32`)
and messages. -/
structure ApiErrorBody where
  errors : List Int
  messages : List String
deriving Repr, DecidableEq

/-- The SDK error enum from `errors.rs`. Variants wrapping foreign error types
carry their message text; `InvalidHeaderValue` wraps an opaque foreign error
and is modelled without payload. -/
inductive Error where
  | Reqwest (msg : String)
  | Url (msg : String)
  | UrlEncoded (msg : String)
  | Json (msg : String)
  | HmacKey (msg : String)
  | SystemTime (msg : String)
  | InvalidHeaderValue
  | MethodNotFound (name : String)
  | MissingPathParameter (name : String)
  | Api (status : Nat) (body : String) (api_error_details : Option ApiErrorBody)
  | Other (msg : String)
deriving Repr, DecidableEq

/-- `MethodSetting` from `method_settings.rs`. -/
structure MethodSetting where
  http_method : String
  path_segments : List String
  trading_pair_parameter : Option String
  currency_parameter : Option String
  parameters : List String
  id_parameter : Option String
deriving Repr, DecidableEq

/-- `API_BASE_URI` from `constants.rs` (the one imported by
`trading_api_sdk_v4.rs`; it carries a trailing slash). -/
def API_BASE_URI : String := "https://api.bitcoin.de/v4/"

/-- The static `METHOD_SETTINGS` table, entry for entry in source order.
`HashMap` is modelled as an association list; all keys are distinct. -/
def METHOD_SETTINGS : List (String × MethodSetting) :=
  [("showOrderbook",
    { http_method := "GET", path_segments := [":trading_pair", "orderbook"],
      trading_pair_parameter := some "trading_pair", currency_parameter := none,
      parameters := ["type"], id_parameter := none }),
   ("showOrderDetails",
    { http_method := "GET",
      path_segments := [":trading_pair", "orders", "public", "details", ":order_id"],
      trading_pair_parameter := some "trading_pair", currency_parameter := none,
      parameters := [], id_parameter := some "order_id" }),
   ("createOrder",
    { http_method := "POST", path_segments := [":trading_pair", "orders"],
      trading_pair_parameter := some "trading_pair", currency_parameter := none,
      parameters := ["type", "max_amount_currency_to_trade", "price"],
      id_parameter := none }),
   ("deleteOrder",
    { http_method := "DELETE", path_segments := [":trading_pair", "orders", ":order_id"],
      trading_pair_parameter := some "trading_pair", currency_parameter := none,
      parameters := [], id_parameter := some "order_id" }),
   ("showMyOrders",
    { http_method := "GET", path_segments := [":trading_pair", "orders"],
      trading_pair_parameter := some "trading_pair", currency_parameter := none,
      parameters := [], id_parameter := none }),
   ("showMyOrderDetails",
    { http_method := "GET", path_segments := [":trading_pair", "orders", ":order_id"],
      trading_pair_parameter := some "trading_pair", currency_parameter := none,
      parameters := [], id_parameter := some "order_id" }),
   ("executeTrade",
    { http_method := "POST", path_segments := [":trading_pair", "trades", ":order_id"],
      trading_pair_parameter := some "trading_pair", currency_parameter := none,
      parameters := ["type", "amount_currency_to_trade"], id_parameter := some "order_id" }),
   ("showMyTrades",
    { http_method := "GET", path_segments := [":trading_pair", "trades"],
      trading_pair_parameter := some "trading_pair", currency_parameter := none,
      parameters := [], id_parameter := none }),
   ("showMyTradeDetails",
    { http_method := "GET", path_segments := [":trading_pair", "trades", ":trade_id"],
      trading_pair_parameter := some "trading_pair", currency_parameter := none,
      parameters := [], id_parameter := some "trade_id" }),
   ("markTradeAsPaid",
    { http_method := "POST",
      path_segments := [":trading_pair", "trades", ":trade_id", "mark_trade_as_paid"],
      trading_pair_parameter := some "trading_pair", currency_parameter := none,
      parameters := ["volume_currency_to_pay_after_fee"], id_parameter := some "trade_id" }),
   ("markTradeAsPaymentReceived",
    { http_method := "POST",
      path_segments := [":trading_pair", "trades", ":trade_id", "mark_trade_as_payment_received"],
      trading_pair_parameter := some "trading_pair", currency_parameter := none,
      parameters := ["volume_currency_to_pay_after_fee", "rating",
        "is_paid_from_correct_bank_account"],
      id_parameter := some "trade_id" }),
   ("addTradeRating",
    { http_method := "POST",
      path_segments := [":trading_pair", "trades", ":trade_id", "add_trade_rating"],
      trading_pair_parameter := some "trading_pair", currency_parameter := none,
      parameters := ["rating"], id_parameter := some "trade_id" }),
   ("showAccountInfo",
    { http_method := "GET", path_segments := ["account"],
      trading_pair_parameter := none, currency_parameter := none,
      parameters := [], id_parameter := none }),
   ("showAccountLedger",
    { http_method := "GET", path_segments := [":currency", "account", "ledger"],
      trading_pair_parameter := none, currency_parameter := some "currency",
      parameters := [], id_parameter := none }),
   ("showPermissions",
    { http_method := "GET", path_segments := ["permissions"],
      trading_pair_parameter := none, currency_parameter := none,
      parameters := [], id_parameter := none }),
   ("createWithdrawal",
    { http_method := "POST", path_segments := [":currency", "withdrawals"],
      trading_pair_parameter := none, currency_parameter := some "currency",
      parameters := ["amount", "address", "network_fee"], id_parameter := none }),
   ("deleteWithdrawal",
    { http_method := "DELETE",
      path_segments := [":currency", "withdrawals", ":withdrawal_id"],
      trading_pair_parameter := none, currency_parameter := some "currency",
      parameters := [], id_parameter := some "withdrawal_id" }),
   ("showWithdrawal",
    { http_method := "GET", path_segments := [":currency", "withdrawals", ":withdrawal_id"],
      trading_pair_parameter := none, currency_parameter := some "currency",
      parameters := [], id_parameter := some "withdrawal_id" }),
   ("showWithdrawalMinNetworkFee",
    { http_method := "GET", path_segments := [":currency", "withdrawals", "min_network_fee"],
      trading_pair_parameter := none, currency_parameter := some "currency",
      parameters := [], id_parameter := none }),
   ("showWithdrawals",
    { http_method := "GET", path_segments := [":currency", "withdrawals"],
      trading_pair_parameter := none, currency_parameter := some "currency",
      parameters := [], id_parameter := none }),
   ("showOutgoingAddresses",
    { http_method := "GET", path_segments := [":currency", "outgoing_address"],
      trading_pair_parameter := none, currency_parameter := some "currency",
      parameters := [], id_parameter := none }),
   ("requestDepositAddress",
    { http_method := "POST", path_segments := [":currency", "deposits", "new_address"],
      trading_pair_parameter := none, currency_parameter := some "currency",
      parameters := [], id_parameter := none }),
   ("showDeposit",
    { http_method := "GET", path_segments := [":currency", "deposits", ":deposit_id"],
      trading_pair_parameter := none, currency_parameter := some "currency",
      parameters := [], id_parameter := some "deposit_id" }),
   ("showDeposits",
    { http_method := "GET", path_segments := [":currency", "deposits"],
      trading_pair_parameter := none, currency_parameter := some "currency",
      parameters := [], id_parameter := none }),
   ("showOrderbookCompact",
    { http_method := "GET", path_segments := [":trading_pair", "orderbook", "compact"],
      trading_pair_parameter := some "trading_pair", currency_parameter := none,
      parameters := [], id_parameter := none }),
   ("showPublicTradeHistory",
    { http_method := "GET", path_segments := [":trading_pair", "trades", "history"],
      trading_pair_parameter := some "trading_pair", currency_parameter := none,
      parameters := [], id_parameter := none }),
   ("showRates",
    { http_method := "GET", path_segments := [":trading_pair", "rates"],
      trading_pair_parameter := some "trading_pair", currency_parameter := none,
      parameters := [], id_parameter := none }),
   ("addToAddressPool",
    { http_method := "POST", path_segments := [":currency", "address_pool"],
      trading_pair_parameter := none, currency_parameter := some "currency",
      parameters := ["address"], id_parameter := none }),
   ("removeFromAddressPool",
    { http_method := "DELETE", path_segments := [":currency", "address_pool", ":address"],
      trading_pair_parameter := none, currency_parameter := some "currency",
      parameters := [], id_parameter := some "address" }),
   ("listAddressPool",
    { http_method := "GET", path_segments := [":currency", "address_pool"],
      trading_pair_parameter := none, currency_parameter := some "currency",
      parameters := [], id_parameter := none }),
   ("markCoinsAsTransferred",
    { http_method := "POST",
      path_segments := [":trading_pair", "trades", ":trade_id", "mark_coins_as_transferred"],
      trading_pair_parameter := some "trading_pair", currency_parameter := none,
      parameters := ["amount_currency_to_trade_after_fee"], id_parameter := some "trade_id" }),
   ("markCoinsAsReceived",
    { http_method := "POST",
      path_segments := [":trading_pair", "trades", ":trade_id", "mark_coins_as_received"],
      trading_pair_parameter := some "trading_pair", currency_parameter := none,
      parameters := ["amount_currency_to_trade_after_fee", "rating"],
      id_parameter := some "trade_id" })]

/-! ### The request signer (`generate_signature`, lines 303-362) -/

/-- Step 1 of `generate_signature`: the body digest. A present, non-empty
parameter map is sorted by key, form-encoded and MD5-hashed; otherwise the
source substitutes the hard-coded constant. -/
def postParameterMd5 (body_parameters : Option (List (String × String))) : String :=
  match body_parameters with
  | some params =>
    if params.isEmpty then "d41d8cd98f00b204e9800998ecf8427e"
    else md5Hex (utf8Bytes (formUrlEncodePairs (sortByKey params)))
  | none => "d41d8cd98f00b204e9800998ecf8427e"

/-- Model of Rust `str::to_uppercase`. `Char.toUpper` only maps ASCII letters;
this agrees with Rust on ASCII input, and every verb stored in
`METHOD_SETTINGS` is ASCII. -/
def toUppercase (s : String) : String := String.mk (s.data.map Char.toUpper)

/-- `generate_signature` (lines 303-362). `HmacSha256::new_from_slice` accepts
keys of every length (HMAC hashes long keys and zero-pads short ones), so the
`?` on it in the source never yields `Error::HmacKey`; the embedding makes
that explicit by always returning `Except.ok`. -/
def generate_signature (creds : ApiCredentials) (http_method url_for_signature nonce : String)
    (body_parameters : Option (List (String × String))) : Except Error String :=
  let api_key := creds.api_key
  let api_secret := creds.api_secret
  let post_parameter_md5_hashed_string := postParameterMd5 body_parameters
  let hmac_data := toUppercase http_method ++ "#" ++ url_for_signature ++ "#" ++
    api_key ++ "#" ++ nonce ++ "#" ++ post_parameter_md5_hashed_string
  let signature_bytes := hmacSha256 (utf8Bytes api_secret) (utf8Bytes hmac_data)
  Except.ok (hexOfBytes signature_bytes)

/-! ### Request building (`build_url_path` lines 90-118, `do_request`
lines 138-266) -/

/-- Model of `str::starts_with(':')`: the first character is a colon. -/
def startsWithColon (s : String) : Bool :=
  match s.data with
  | c :: _ => c == ':'
  | [] => false

/-- The segment-substitution loop of `build_url_path`: placeholder segments
(starting with `:`) are replaced by the value removed from the path-parameter
map, a missing value aborts with `MissingPathParameter`. (`&segment[1..]`, the
placeholder name, is the segment minus its leading one-byte colon, i.e.
`String.drop 1`.) -/
def build_url_path_loop : List String → List (String × String) → Except Error (List String)
  | [], _ => .ok []
  | segment :: rest, path_params =>
    if startsWithColon segment then
      let param_name := segment.drop 1
      match List.lookup param_name path_params with
      | some value =>
          (build_url_path_loop rest (path_params.eraseP (fun kv => kv.1 == param_name))).map
            (fun l => value :: l)
      | none => .error (.MissingPathParameter param_name)
    else
      (build_url_path_loop rest path_params).map (fun l => segment :: l)

/-- Model of `str::trim_end_matches('/')`. -/
def trimTrailingSlashes (s : String) : String :=
  String.mk (s.data.reverse.dropWhile (fun c => c == '/') |>.reverse)

/-- `build_url_path` (lines 90-118): substitute placeholders, then join the
base URI (trailing slashes trimmed) with the `/`-joined segments. -/
def build_url_path (method_setting : MethodSetting)
    (path_params : List (String × String)) : Except Error String :=
  (build_url_path_loop method_setting.path_segments path_params).map
    (fun segs => trimTrailingSlashes API_BASE_URI ++ "/" ++ String.intercalate "/" segs)

/-- The values `do_request` prepares before signing (lines 179-214). -/
structure PreparedRequest where
  http_method : String
  url_for_request : String
  url_for_signature : String
  params_for_signature : Option (List (String × String))
  params_for_body : Option (List (String × String))
deriving Repr, DecidableEq

/-- Lines 157-169 of `do_request`: the path-parameter map collected from the
caller bag for each placeholder segment. (`HashMap::insert` keyed by the
placeholder name; duplicates cannot arise for distinct placeholder names.) -/
def collectPathParams (segments : List String) (params : List (String × String)) :
    List (String × String) :=
  segments.filterMap (fun segment =>
    if startsWithColon segment then
      (List.lookup (segment.drop 1) params).map (fun v => (segment.drop 1, v))
    else none)

/-- Lines 170-173: every key of the path-parameter map is removed from the
caller bag; the rest are the query/body parameters. -/
def removePathParams (params path_params_map : List (String × String)) :
    List (String × String) :=
  params.filter (fun kv => !(path_params_map.any (fun pp => pp.1 == kv.1)))

/-- Lines 146-214 of `do_request`: registry lookup, parameter splitting, URL
construction and the verb-dependent choice of signature URL and signature/body
parameters. `Url::parse` is modelled as the identity on the URLs this SDK
constructs (an absolute https base with no query), with `set_query` tracked by
string concatenation; `serde_urlencoded::to_string` never fails on a map of
strings, so its `?` is modelled as total. -/
def prepareRequest (method_name : String) (parameters : Option (List (String × String))) :
    Except Error PreparedRequest :=
  match List.lookup method_name METHOD_SETTINGS with
  | none => .error (.MethodNotFound method_name)
  | some method_setting =>
    let params := parameters.getD []
    let path_params_map := collectPathParams method_setting.path_segments params
    let remaining_params := removePathParams params path_params_map
    match build_url_path method_setting path_params_map with
    | .error e => .error e
    | .ok base_url_path =>
      match method_setting.http_method with
      | "GET" | "DELETE" =>
        let url_for_request :=
          if remaining_params.isEmpty then base_url_path
          else base_url_path ++ "?" ++ formUrlEncodePairs remaining_params
        .ok { http_method := method_setting.http_method,
              url_for_request := url_for_request,
              url_for_signature := url_for_request,
              params_for_signature := none, params_for_body := none }
      | "POST" =>
        .ok { http_method := method_setting.http_method,
              url_for_request := base_url_path,
              url_for_signature := base_url_path,
              params_for_signature :=
                if remaining_params.isEmpty then none else some remaining_params,
              params_for_body :=
                if remaining_params.isEmpty then none else some remaining_params }
      | m => .error (.Other ("Unsupported HTTP method: " ++ m))

/-- Decimal digit list of a natural number, most significant first; `fuel`
bounds recursion depth and any value above the digit count suffices. -/
def natDecDigits : Nat → Nat → List Nat
  | 0, _ => []
  | fuel + 1, n => if n < 10 then [n] else natDecDigits fuel (n / 10) ++ [n % 10]

/-- Model of `u128::to_string` for the microsecond nonce (line 218-221). -/
def natToDecimalString (n : Nat) : String :=
  String.mk ((natDecDigits (n + 1) n).map (fun d => Char.ofNat (48 + d)))

/-- Byte legality test of `http::HeaderValue`: horizontal tab, or any byte
that is at least 32 and not 127. -/
def headerValueByteValid (b : Nat) : Bool :=
  (32 ≤ b && b != 127) || b == 9

/-- `HeaderValue::from_str` succeeds exactly when every byte is legal. -/
def headerValueValid (s : String) : Bool :=
  (utf8Bytes s).all headerValueByteValid

/-- Everything `do_request` has assembled when it reaches the transport send
(line 265): the request description handed to `reqwest`. -/
structure BuiltRequest where
  prepared : PreparedRequest
  nonce : String
  signature : String
  headers : List (String × String)
deriving Repr, DecidableEq

/-- Lines 146-263 of `do_request`: the request-construction pipeline up to the
single network suspension point. The nonce clock reading is passed in as
`nonce_micros` (microseconds since the Unix epoch). A returned `Except.error`
means the pipeline aborted before any HTTP request was sent. -/
def do_request_build (method_name : String) (parameters : Option (List (String × String)))
    (nonce_micros : Nat) (creds : ApiCredentials) : Except Error BuiltRequest :=
  match prepareRequest method_name parameters with
  | .error e => .error e
  | .ok p =>
    let nonce := natToDecimalString nonce_micros
    match generate_signature creds p.http_method p.url_for_signature nonce
        p.params_for_signature with
    | .error e => .error e
    | .ok signature =>
      if headerValueValid creds.api_key then
        if headerValueValid nonce then
          if headerValueValid signature then
            let base := [("X-API-KEY", creds.api_key), ("X-API-NONCE", nonce),
                         ("X-API-SIGNATURE", signature)]
            let headers :=
              if p.http_method == "POST" && p.params_for_body.isSome then
                base ++ [("Content-Type", "application/x-www-form-urlencoded")]
              else base
            .ok { prepared := p, nonce := nonce, signature := signature, headers := headers }
          else .error .InvalidHeaderValue
        else .error .InvalidHeaderValue
      else .error .InvalidHeaderValue

/-! ### JSON (model of the `serde_json` parsing used by `Error::api_error`
and the response decoding stage) -/

/-- JSON values. Numbers keep sign, integer part and an integer flag; that is
all the decoding of `ApiErrorBody` (whose numeric fields are `i32`) inspects:
`serde_json` rejects numbers with a fraction or exponent for integer targets. -/
inductive Json where
  | null
  | bool (b : Bool)
  | num (neg : Bool) (intPart : Nat) (isInt : Bool)
  | str (s : String)
  | arr (elems : List Json)
  | obj (fields : List (String × Json))
deriving Repr

/-- The opening curly bracket character (code 123). -/
def lcurly : Char := Char.ofNat 123

/-- The closing curly bracket character (code 125). -/
def rcurly : Char := Char.ofNat 125

/-- JSON insignificant whitespace. -/
def jsonWs (c : Char) : Bool := c == ' ' || c == '\t' || c == '\n' || c == '\r'

/-- Drop leading JSON whitespace. -/
def skipWs (cs : List Char) : List Char := cs.dropWhile jsonWs

/-- Value of a hex digit character. -/
def hexVal (c : Char) : Option Nat :=
  if '0' ≤ c && c ≤ '9' then some (c.toNat - 48)
  else if 'a' ≤ c && c ≤ 'f' then some (c.toNat - 87)
  else if 'A' ≤ c && c ≤ 'F' then some (c.toNat - 55)
  else none

/-- Four hex digits of a `\u` escape. -/
def parseHex4 : List Char → Option (Nat × List Char)
  | c1 :: c2 :: c3 :: c4 :: rest => do
    let v1 ← hexVal c1
    let v2 ← hexVal c2
    let v3 ← hexVal c3
    let v4 ← hexVal c4
    some (((v1 * 16 + v2) * 16 + v3) * 16 + v4, rest)
  | _ => none

/-- JSON string body (after the opening quote): handles the standard escapes,
`\u` with surrogate pairs, and rejects lone surrogates and raw control
characters, as `serde_json` does. -/
def parseJStringChars : Nat → List Char → List Char → Option (List Char × List Char)
  | 0, _, _ => none
  | fuel + 1, cs, acc =>
    match cs with
    | [] => none
    | c :: rest =>
      if c == '"' then some (acc.reverse, rest)
      else if c == '\\' then
        match rest with
        | [] => none
        | e :: rest2 =>
          if e == '"' then parseJStringChars fuel rest2 ('"' :: acc)
          else if e == '\\' then parseJStringChars fuel rest2 ('\\' :: acc)
          else if e == '/' then parseJStringChars fuel rest2 ('/' :: acc)
          else if e == 'b' then parseJStringChars fuel rest2 (Char.ofNat 8 :: acc)
          else if e == 'f' then parseJStringChars fuel rest2 (Char.ofNat 12 :: acc)
          else if e == 'n' then parseJStringChars fuel rest2 ('\n' :: acc)
          else if e == 'r' then parseJStringChars fuel rest2 ('\r' :: acc)
          else if e == 't' then parseJStringChars fuel rest2 ('\t' :: acc)
          else if e == 'u' then
            match parseHex4 rest2 with
            | none => none
            | some (n, rest3) =>
              if 0xD800 ≤ n && n ≤ 0xDBFF then
                match rest3 with
                | u1 :: u2 :: rest4 =>
                  if u1 == '\\' && u2 == 'u' then
                    match parseHex4 rest4 with
                    | some (m, rest5) =>
                      if 0xDC00 ≤ m && m ≤ 0xDFFF then
                        parseJStringChars fuel rest5
                          (Char.ofNat (0x10000 + (n - 0xD800) * 0x400 + (m - 0xDC00)) :: acc)
                      else none
                    | none => none
                  else none
                | _ => none
              else if 0xDC00 ≤ n && n ≤ 0xDFFF then none
              else parseJStringChars fuel rest3 (Char.ofNat n :: acc)
          else none
      else if c.toNat < 0x20 then none
      else parseJStringChars fuel rest (c :: acc)

/-- Numeric value of a list of decimal digit characters. -/
def digitsVal (ds : List Char) : Nat := ds.foldl (fun a c => a * 10 + (c.toNat - 48)) 0

/-- Optional fraction part of a JSON number; reports whether one was present. -/
def parseFrac : List Char → Option (Bool × List Char)
  | '.' :: fr =>
    let fd := fr.takeWhile Char.isDigit
    if fd.isEmpty then none else some (true, fr.drop fd.length)
  | cs => some (false, cs)

/-- Optional exponent part of a JSON number; reports whether one was present. -/
def parseExp : List Char → Option (Bool × List Char)
  | [] => some (false, [])
  | c :: cs2 =>
    if c == 'e' || c == 'E' then
      let cs3 :=
        match cs2 with
        | s :: t => if s == '+' || s == '-' then t else cs2
        | [] => cs2
      let ed := cs3.takeWhile Char.isDigit
      if ed.isEmpty then none else some (true, cs3.drop ed.length)
    else some (false, c :: cs2)

/-- JSON number token (leading zeros rejected per the JSON grammar). -/
def parseNumber (cs : List Char) : Option (Json × List Char) :=
  let negAndRest : Bool × List Char :=
    match cs with
    | '-' :: t => (true, t)
    | _ => (false, cs)
  match negAndRest.2 with
  | [] => none
  | d :: _ =>
    if !d.isDigit then none
    else
      let intDigits := if d == '0' then [d] else negAndRest.2.takeWhile Char.isDigit
      let rest1 := negAndRest.2.drop intDigits.length
      match parseFrac rest1 with
      | none => none
      | some (hasFrac, rest2) =>
        match parseExp rest2 with
        | none => none
        | some (hasExp, rest3) =>
          some (.num negAndRest.1 (digitsVal intDigits) (!hasFrac && !hasExp), rest3)

mutual

/-- Recursive-descent JSON value parser; `fuel` bounds recursion depth. -/
def parseValue : Nat → List Char → Option (Json × List Char)
  | 0, _ => none
  | fuel + 1, cs =>
    match cs with
    | [] => none
    | c :: rest =>
      if c == 'n' then
        match rest with
        | 'u' :: 'l' :: 'l' :: r => some (.null, r)
        | _ => none
      else if c == 't' then
        match rest with
        | 'r' :: 'u' :: 'e' :: r => some (.bool true, r)
        | _ => none
      else if c == 'f' then
        match rest with
        | 'a' :: 'l' :: 's' :: 'e' :: r => some (.bool false, r)
        | _ => none
      else if c == '"' then
        match parseJStringChars (rest.length + 1) rest [] with
        | some (content, r) => some (.str (String.mk content), r)
        | none => none
      else if c == '[' then
        match skipWs rest with
        | ']' :: r2 => some (.arr [], r2)
        | r1 => (parseArrItems fuel r1 []).map (fun p => (Json.arr p.1, p.2))
      else if c == lcurly then
        match skipWs rest with
        | d :: r2 =>
          if d == rcurly then some (.obj [], r2)
          else (parseObjItems fuel (d :: r2) []).map (fun p => (Json.obj p.1, p.2))
        | [] => none
      else parseNumber (c :: rest)

/-- Comma-separated JSON array items up to the closing bracket. -/
def parseArrItems : Nat → List Char → List Json → Option (List Json × List Char)
  | 0, _, _ => none
  | fuel + 1, cs, acc =>
    match parseValue fuel (skipWs cs) with
    | none => none
    | some (v, r) =>
      match skipWs r with
      | ',' :: r2 => parseArrItems fuel r2 (v :: acc)
      | ']' :: r2 => some ((v :: acc).reverse, r2)
      | _ => none

/-- Comma-separated JSON object members up to the closing curly bracket. -/
def parseObjItems : Nat → List Char → List (String × Json) →
    Option (List (String × Json) × List Char)
  | 0, _, _ => none
  | fuel + 1, cs, acc =>
    match skipWs cs with
    | '"' :: r =>
      match parseJStringChars (r.length + 1) r [] with
      | none => none
      | some (key, r2) =>
        match skipWs r2 with
        | ':' :: r3 =>
          match parseValue fuel (skipWs r3) with
          | none => none
          | some (v, r4) =>
            match skipWs r4 with
            | ',' :: r5 => parseObjItems fuel r5 ((String.mk key, v) :: acc)
            | cb :: r5 =>
              if cb == rcurly then some (((String.mk key, v) :: acc).reverse, r5)
              else none
            | [] => none
        | _ => none
    | _ => none

end

/-- Model of the parse stage of `serde_json::from_str`: whole-input JSON value
with no trailing garbage. -/
def parseJson (s : String) : Option Json :=
  let cs := skipWs s.data
  match parseValue (s.data.length + 1) cs with
  | some (v, rest) => if (skipWs rest).isEmpty then some v else none
  | none => none

/-- Decode an `i32` as `serde_json` does: an integer token within the `i32`
range; fractions and exponents are rejected. -/
def jsonToI32 : Json → Option Int
  | .num neg n isInt =>
    if isInt then
      let v : Int := if neg then -(n : Int) else (n : Int)
      if -2147483648 ≤ v && v ≤ 2147483647 then some v else none
    else none
  | _ => none

/-- Decode a JSON string. -/
def jsonToString : Json → Option String
  | .str s => some s
  | _ => none

/-- Decode a JSON array elementwise. -/
def jsonArrayMap (f : Json → Option α) : Json → Option (List α)
  | .arr es => es.mapM f
  | _ => none

/-- Decode `ApiErrorBody` from a JSON value: an object with an `errors` array
of `i32` and a `messages` array of strings (extra fields are ignored, missing
ones fail, as with the derived serde implementation). -/
def decodeApiErrorBody (j : Json) : Option ApiErrorBody :=
  match j with
  | .obj fields => do
    let e ← List.lookup "errors" fields
    let m ← List.lookup "messages" fields
    let errs ← jsonArrayMap jsonToI32 e
    let msgs ← jsonArrayMap jsonToString m
    some { errors := errs, messages := msgs }
  | _ => none

/-- `serde_json::from_str::<ApiErrorBody>(&body).ok()`. -/
def parseApiErrorBody (body : String) : Option ApiErrorBody :=
  (parseJson body).bind decodeApiErrorBody

/-- `Error::api_error` (errors.rs lines 88-98): best-effort structured parse of
the body attached to the `Api` variant. -/
def api_error (status : Nat) (body : String) : Error :=
  .Api status body (parseApiErrorBody body)

/-- `StatusCode::is_success`: 200 through 299. -/
def statusIsSuccess (status : Nat) : Bool := 200 ≤ status && status ≤ 299

/-- Lines 269-281 of `do_request`: the response-classification step. The typed
success deserialization `from_str::<T>` is modelled up to its JSON parse stage
(a `Json` value is returned for the typed decode to consume); the `eprintln`
logging on the error path has no bearing on the returned value and is
dropped. -/
def handleResponse (status_code : Nat) (response_text : String) : Except Error Json :=
  if !statusIsSuccess status_code then
    .error (api_error status_code response_text)
  else
    match parseJson response_text with
    | some j => .ok j
    | none => .error (.Json "deserialization error")

/-! ### Serde derive facts of the response modules (for the round-trip claim)

Serializing a value requires a `Serialize` implementation for its type and,
recursively, for every field type the derived implementation delegates to.
The two tables below transcribe, struct by struct, the derive attributes and
the struct-typed field references of `errors.rs`, `responses/mod.rs` and the
six response submodules. -/

/-- Which structs carry `#[derive(.., Serialize)]` in the source. -/
def structDerivesSerialize : List (String × Bool) :=
  [("ApiErrorDetail", false), ("ApiErrorBody", false),
   ("TradingPartnerInformation", false), ("OrderRequirements", false),
   ("PageDetails", false), ("CurrencyAmounts", false),
   ("CompactOrder", false), ("CompactOrderbook", false),
   ("ShowOrderbookCompactResponse", false), ("PublicTradeEntry", false),
   ("ShowPublicTradeHistoryResponse", false), ("RatesDetails", false),
   ("ShowRatesResponse", false), ("OutgoingAddressDetails", false),
   ("ShowOutgoingAddressesResponse", false), ("BasicSuccessResponse", false),
   ("WithdrawalDetails", false), ("ShowWithdrawalResponse", false),
   ("ShowWithdrawalsResponse", false), ("CreateWithdrawalResponse", false),
   ("ShowWithdrawalMinNetworkFeeResponse", false),
   ("OrderbookEntry", true), ("ShowOrderbookResponse", true),
   ("MyOrderDetails", true), ("ShowMyOrdersResponse", true),
   ("ShowOrderDetailsResponse", true), ("CreateOrderResponse", true),
   ("DeleteOrderResponse", true),
   ("MyTradeDetails", true), ("ShowMyTradesResponse", true),
   ("ShowMyTradeDetailsResponse", true),
   ("AccountInfoDetails", true), ("FidorReservation", true),
   ("FidorAllocation", true), ("EncryptedInformation", true),
   ("ShowAccountInfoResponse", true), ("ShowAccountInfoData", true),
   ("AccountBalances", true), ("DetailedBalanceAmounts", true),
   ("LedgerEntry", true), ("LedgerTradeDetails", true),
   ("ShowAccountLedgerResponse", true), ("ShowPermissionsResponse", true),
   ("DepositDetails", true), ("ShowDepositResponse", true),
   ("ShowDepositsResponse", true), ("RequestDepositAddressResponse", true)]

/-- Struct-typed field references of each struct (through `Vec`, `Option` and
`HashMap` wrappers, which forward serialization to the element type).
Primitive field types (`String`, integers, `bool`, `Decimal`, `DateTime`)
always serialize and are omitted. -/
def structFieldStructRefs : List (String × List String) :=
  [("ApiErrorDetail", []), ("ApiErrorBody", []),
   ("TradingPartnerInformation", []), ("OrderRequirements", []),
   ("PageDetails", []), ("CurrencyAmounts", []),
   ("CompactOrder", []), ("CompactOrderbook", ["CompactOrder"]),
   ("ShowOrderbookCompactResponse", ["CompactOrderbook", "ApiErrorDetail"]),
   ("PublicTradeEntry", []),
   ("ShowPublicTradeHistoryResponse", ["PublicTradeEntry", "ApiErrorDetail"]),
   ("RatesDetails", []), ("ShowRatesResponse", ["RatesDetails", "ApiErrorDetail"]),
   ("OutgoingAddressDetails", []),
   ("ShowOutgoingAddressesResponse",
      ["OutgoingAddressDetails", "PageDetails", "ApiErrorDetail"]),
   ("BasicSuccessResponse", ["ApiErrorDetail"]),
   ("WithdrawalDetails", []),
   ("ShowWithdrawalResponse", ["WithdrawalDetails", "ApiErrorDetail"]),
   ("ShowWithdrawalsResponse", ["WithdrawalDetails", "PageDetails", "ApiErrorDetail"]),
   ("CreateWithdrawalResponse", ["ApiErrorDetail"]),
   ("ShowWithdrawalMinNetworkFeeResponse", ["ApiErrorDetail"]),
   ("OrderbookEntry", ["TradingPartnerInformation", "OrderRequirements"]),
   ("ShowOrderbookResponse", ["OrderbookEntry", "ApiErrorDetail"]),
   ("MyOrderDetails", ["OrderRequirements", "TradingPartnerInformation"]),
   ("ShowMyOrdersResponse", ["MyOrderDetails", "PageDetails", "ApiErrorDetail"]),
   ("ShowOrderDetailsResponse", ["MyOrderDetails", "ApiErrorDetail"]),
   ("CreateOrderResponse", ["ApiErrorDetail"]),
   ("DeleteOrderResponse", ["ApiErrorDetail"]),
   ("MyTradeDetails", ["TradingPartnerInformation", "CurrencyAmounts"]),
   ("ShowMyTradesResponse", ["MyTradeDetails", "PageDetails", "ApiErrorDetail"]),
   ("ShowMyTradeDetailsResponse", ["MyTradeDetails", "ApiErrorDetail"]),
   ("AccountInfoDetails", []), ("FidorReservation", ["FidorAllocation"]),
   ("FidorAllocation", []), ("EncryptedInformation", []),
   ("ShowAccountInfoResponse", ["ShowAccountInfoData", "ApiErrorDetail"]),
   ("ShowAccountInfoData", ["AccountBalances", "EncryptedInformation"]),
   ("AccountBalances", ["DetailedBalanceAmounts"]),
   ("DetailedBalanceAmounts", []),
   ("LedgerEntry", ["LedgerTradeDetails"]),
   ("LedgerTradeDetails", ["CurrencyAmounts"]),
   ("ShowAccountLedgerResponse", ["LedgerEntry", "PageDetails", "ApiErrorDetail"]),
   ("ShowPermissionsResponse", ["ApiErrorDetail"]),
   ("DepositDetails", []),
   ("ShowDepositResponse", ["DepositDetails", "ApiErrorDetail"]),
   ("ShowDepositsResponse", ["DepositDetails", "PageDetails", "ApiErrorDetail"]),
   ("RequestDepositAddressResponse", ["ApiErrorDetail"])]

/-- A struct has a usable (compilable) serializer when it derives `Serialize`
and every struct-typed field does, recursively. -/
def serializerCompiles : Nat → String → Bool
  | 0, _ => false
  | fuel + 1, name =>
    match List.lookup name structDerivesSerialize with
    | none => false
    | some d =>
      d && ((List.lookup name structFieldStructRefs).getD []).all (serializerCompiles fuel)

/-- The top-level success-response shapes of the response modules (the type
aliases of trades.rs and withdrawals.rs resolve to `BasicSuccessResponse`,
which is listed). -/
def successResponseShapes : List String :=
  ["ShowOrderbookCompactResponse", "ShowPublicTradeHistoryResponse",
   "ShowRatesResponse", "ShowOutgoingAddressesResponse", "BasicSuccessResponse",
   "ShowWithdrawalResponse", "ShowWithdrawalsResponse", "CreateWithdrawalResponse",
   "ShowWithdrawalMinNetworkFeeResponse", "ShowOrderbookResponse",
   "ShowMyOrdersResponse", "ShowOrderDetailsResponse", "CreateOrderResponse",
   "DeleteOrderResponse", "ShowMyTradesResponse", "ShowMyTradeDetailsResponse",
   "ShowAccountInfoResponse", "ShowAccountLedgerResponse", "ShowPermissionsResponse",
   "ShowDepositResponse", "ShowDepositsResponse", "RequestDepositAddressResponse"]

/-! ### Specification-side definitions

These restate, independently of the pipeline functions above, what the
specification says the code computes; the claim theorems connect the two. -/

/-- The canonical signing string of spec 4.3 step 2: exactly five fields
joined by `#`, in order — uppercased verb, signature URL, API key, nonce,
body digest. -/
def canonicalSigningString (verb url api_key nonce digest : String) : String :=
  String.intercalate "#" [toUppercase verb, url, api_key, nonce, digest]

/-- The placeholder names of a path template, in path order. -/
def placeholderNames (segments : List String) : List String :=
  segments.filterMap (fun seg => if startsWithColon seg then some (seg.drop 1) else none)

/-- The first placeholder (in path order) whose name has no entry in the
parameter bag. -/
def firstMissingPlaceholder (segments : List String)
    (params : List (String × String)) : Option String :=
  (placeholderNames segments).find? (fun n => (List.lookup n params).isNone)

/-- Path segments with every placeholder replaced by its bag value. -/
def substituteSegments (segments : List String) (params : List (String × String)) :
    List String :=
  segments.map (fun seg =>
    if startsWithColon seg then (List.lookup (seg.drop 1) params).getD "" else seg)

/-- The resolved base path: trimmed base URI, slash, `/`-joined substituted
segments. -/
def basePathSpec (segments : List String) (params : List (String × String)) : String :=
  trimTrailingSlashes API_BASE_URI ++ "/" ++
    String.intercalate "/" (substituteSegments segments params)

/-- Whether `n` names a placeholder of the path template. -/
def isPathPlaceholderName (segments : List String) (n : String) : Bool :=
  segments.any (fun seg => startsWithColon seg && seg.drop 1 == n)

/-- The non-placeholder entries of the bag: the query (GET/DELETE) or body
(POST) parameters. -/
def remainingParamsSpec (segments : List String) (params : List (String × String)) :
    List (String × String) :=
  params.filter (fun kv => !isPathPlaceholderName segments kv.1)

/-- The full request URL of a GET/DELETE call: base path plus `?`-prefixed
form-encoded query string when any non-placeholder parameters remain. -/
def urlWithQuerySpec (segments : List String) (params : List (String × String)) : String :=
  if (remainingParamsSpec segments params).isEmpty then basePathSpec segments params
  else basePathSpec segments params ++ "?" ++
    formUrlEncodePairs (remainingParamsSpec segments params)

/-- Lowercase hexadecimal alphabet membership. -/
def isLowerHexChar (c : Char) : Bool :=
  c.isDigit || ('a' ≤ c && c ≤ 'f')

/-- Executable duplicate-freedom check for string lists. -/
def listNodupB : List String → Bool
  | [] => true
  | x :: t => !t.contains x && listNodupB t

/-- Decidable equality for `Except` results, so pipeline outcomes can be
checked computationally. -/
instance {ε α : Type} [DecidableEq ε] [DecidableEq α] : DecidableEq (Except ε α) :=
  fun a b =>
    match a, b with
    | .error e1, .error e2 =>
      if h : e1 = e2 then .isTrue (h ▸ rfl)
      else .isFalse (fun hc => h (Except.error.inj hc))
    | .ok a1, .ok a2 =>
      if h : a1 = a2 then .isTrue (h ▸ rfl)
      else .isFalse (fun hc => h (Except.ok.inj hc))
    | .error _, .ok _ => .isFalse (fun hc => Except.noConfusion hc)
    | .ok _, .error _ => .isFalse (fun hc => Except.noConfusion hc)

end BitcoinDe

namespace BitcoinDe

/-! ### Order lemmas for the byte-wise key comparison -/

theorem charListLt_asymm (x : List Char) :
    ∀ y, charListLt x y = true → charListLt y x = false := by
  induction x with
  | nil =>
    intro y h
    cases y with
    | nil => exact Bool.noConfusion h
    | cons b bs => rfl
  | cons a as2 ih =>
    intro y h
    cases y with
    | nil => exact Bool.noConfusion h
    | cons b bs =>
      simp only [charListLt] at h ⊢
      by_cases hab : a < b
      · have hba : ¬ b < a := lt_asymm hab
        simp [hab, hba]
      · by_cases hba : b < a
        · simp [hab, hba] at h
        · simp only [if_neg hab, if_neg hba] at h ⊢
          exact ih bs h

theorem charListLt_eq_of_false (x : List Char) :
    ∀ y, charListLt x y = false → charListLt y x = false → x = y := by
  induction x with
  | nil =>
    intro y h1 _
    cases y with
    | nil => rfl
    | cons b bs => exact Bool.noConfusion h1
  | cons a as2 ih =>
    intro y h1 h2
    cases y with
    | nil => exact Bool.noConfusion h2
    | cons b bs =>
      simp only [charListLt] at h1 h2
      by_cases hab : a < b
      · simp [hab] at h1
      · by_cases hba : b < a
        · simp [hab, hba] at h2
        · have hchar : a = b := le_antisymm (not_lt.mp hba) (not_lt.mp hab)
          simp only [if_neg hab, if_neg hba] at h1 h2
          rw [hchar, ih bs h1 h2]

theorem charListLt_trans (x : List Char) :
    ∀ y z, charListLt x y = true → charListLt y z = true → charListLt x z = true := by
  induction x with
  | nil =>
    intro y z h1 h2
    cases y with
    | nil => exact Bool.noConfusion h1
    | cons b bs =>
      cases z with
      | nil => exact Bool.noConfusion h2
      | cons c cs => rfl
  | cons a as2 ih =>
    intro y z h1 h2
    cases y with
    | nil => exact Bool.noConfusion h1
    | cons b bs =>
      cases z with
      | nil => exact Bool.noConfusion h2
      | cons c cs =>
        simp only [charListLt] at h1 h2 ⊢
        by_cases hab : a < b
        · by_cases hbc : b < c
          · simp [lt_trans hab hbc]
          · by_cases hcb : c < b
            · simp [hbc, hcb] at h2
            · have : b = c := le_antisymm (not_lt.mp hcb) (not_lt.mp hbc)
              simp [this ▸ hab]
        · by_cases hba : b < a
          · simp [hab, hba] at h1
          · have hb : a = b := le_antisymm (not_lt.mp hba) (not_lt.mp hab)
            subst hb
            by_cases hac : a < c
            · simp [hac]
            · by_cases hca : c < a
              · simp [hac, hca] at h2
              · simp only [if_neg hab, if_neg hba] at h1
                simp only [if_neg hac, if_neg hca] at h2 ⊢
                exact ih bs cs h1 h2

theorem strLeB_total (a b : String) (h : strLeB a b = false) : strLeB b a = true := by
  unfold strLeB strLtB at h ⊢
  cases hx : charListLt b.data a.data with
  | false => rw [hx] at h; exact Bool.noConfusion h
  | true => rw [charListLt_asymm _ _ hx]; rfl

theorem strLeB_trans (a b c : String) (h1 : strLeB a b = true) (h2 : strLeB b c = true) :
    strLeB a c = true := by
  unfold strLeB strLtB at h1 h2 ⊢
  cases hba : charListLt b.data a.data with
  | true => rw [hba] at h1; exact Bool.noConfusion h1
  | false =>
  cases hcb : charListLt c.data b.data with
  | true => rw [hcb] at h2; exact Bool.noConfusion h2
  | false =>
  cases hca : charListLt c.data a.data with
  | false => rfl
  | true =>
    exfalso
    cases hab : charListLt a.data b.data with
    | true =>
      have hcb2 := charListLt_trans _ _ _ hca hab
      rw [hcb2] at hcb
      exact Bool.noConfusion hcb
    | false =>
      have heq : a.data = b.data := charListLt_eq_of_false _ _ hab hba
      rw [heq] at hca
      rw [hca] at hcb
      exact Bool.noConfusion hcb

theorem strLtB_of_le_ne (a b : String) (h1 : strLeB a b = true) (h2 : a ≠ b) :
    strLtB a b = true := by
  unfold strLeB strLtB at h1
  unfold strLtB
  cases hab : charListLt a.data b.data with
  | true => rfl
  | false =>
    exfalso
    cases hba : charListLt b.data a.data with
    | true => rw [hba] at h1; exact Bool.noConfusion h1
    | false => exact h2 (congrArg String.mk (charListLt_eq_of_false _ _ hab hba))

/-! ### Insertion-sort lemmas -/

theorem insertByKey_perm (p : String × String) (l : List (String × String)) :
    (insertByKey p l).Perm (p :: l) := by
  induction l with
  | nil => exact List.Perm.refl _
  | cons q t ih =>
    simp only [insertByKey]
    by_cases h : strLeB p.1 q.1 = true
    · rw [if_pos h]
    · rw [if_neg h]
      exact (ih.cons q).trans (List.Perm.swap p q t)

theorem sortByKey_perm (l : List (String × String)) : (sortByKey l).Perm l := by
  induction l with
  | nil => exact List.Perm.refl _
  | cons p t ih => exact (insertByKey_perm p (sortByKey t)).trans (ih.cons p)

theorem insertByKey_sorted (p : String × String) (l : List (String × String))
    (hl : l.Pairwise (fun x y => strLeB x.1 y.1 = true)) :
    (insertByKey p l).Pairwise (fun x y => strLeB x.1 y.1 = true) := by
  induction l with
  | nil => simp [insertByKey]
  | cons q t ih =>
    rcases List.pairwise_cons.mp hl with ⟨hq, ht⟩
    simp only [insertByKey]
    by_cases h : strLeB p.1 q.1 = true
    · rw [if_pos h]
      refine List.pairwise_cons.mpr ⟨?_, hl⟩
      intro x hx
      rcases List.mem_cons.mp hx with hx3 | hx3
      · rw [hx3]; exact h
      · exact strLeB_trans _ _ _ h (hq x hx3)
    · rw [if_neg h]
      refine List.pairwise_cons.mpr ⟨?_, ih ht⟩
      intro x hx
      have hx2 : x ∈ p :: t := (insertByKey_perm p t).mem_iff.mp hx
      rcases List.mem_cons.mp hx2 with hx3 | hx3
      · rw [hx3]
        refine strLeB_total _ _ ?_
        cases hb : strLeB p.1 q.1 with
        | false => rfl
        | true => exact absurd hb h
      · exact hq x hx3

theorem sortByKey_sorted (l : List (String × String)) :
    (sortByKey l).Pairwise (fun x y => strLeB x.1 y.1 = true) := by
  induction l with
  | nil => simp [sortByKey]
  | cons p t ih => exact insertByKey_sorted p (sortByKey t) ih

theorem sortByKey_strict_sorted (l : List (String × String))
    (hnd : (l.map Prod.fst).Nodup) :
    (sortByKey l).Pairwise (fun x y => strLtB x.1 y.1 = true) := by
  have hperm : (sortByKey l).Perm l := sortByKey_perm l
  have hnd2 : ((sortByKey l).map Prod.fst).Nodup :=
    ((hperm.map Prod.fst).nodup_iff).mpr hnd
  have hne : (sortByKey l).Pairwise (fun x y => x.1 ≠ y.1) :=
    List.pairwise_map.mp hnd2
  exact ((sortByKey_sorted l).and hne).imp (fun h => strLtB_of_le_ne _ _ h.1 h.2)

theorem sortByKey_eq_of_perm (l1 l2 : List (String × String)) (hp : l1.Perm l2)
    (hnd : (l1.map Prod.fst).Nodup) : sortByKey l1 = sortByKey l2 := by
  haveI : IsAntisymm (String × String) (fun x y => strLtB x.1 y.1 = true) := by
    constructor
    intro a b h1 h2
    exfalso
    have := charListLt_asymm _ _ h1
    rw [strLtB] at h2
    rw [this] at h2
    exact Bool.false_ne_true h2
  have hnd2 : (l2.map Prod.fst).Nodup := ((hp.map Prod.fst).nodup_iff).mp hnd
  exact List.eq_of_perm_of_sorted
    ((sortByKey_perm l1).trans (hp.trans (sortByKey_perm l2).symm))
    (sortByKey_strict_sorted l1 hnd) (sortByKey_strict_sorted l2 hnd2)

/-! ### Pipeline lemmas -/

theorem lookup_eraseP_ne (m : List (String × String)) (n nP : String) (h : nP ≠ n) :
    List.lookup nP (m.eraseP (fun kv => kv.1 == n)) = List.lookup nP m := by
  induction m with
  | nil => rfl
  | cons kv t ih =>
    rw [List.eraseP_cons]
    cases hk : kv.1 == n with
    | true =>
      simp only [cond_true]
      have hkn : kv.1 = n := beq_iff_eq.mp hk
      have : (nP == kv.1) = false := by
        rw [hkn]
        exact beq_eq_false_iff_ne.mpr h
      simp [List.lookup, this]
    | false =>
      simp only [cond_false]
      cases hq : nP == kv.1 with
      | true => simp [List.lookup, hq]
      | false => simp [List.lookup, hq, ih]

theorem lookup_mem {β : Type} (l : List (String × β)) (k : String) (v : β)
    (h : List.lookup k l = some v) : (k, v) ∈ l := by
  induction l with
  | nil => exact Option.noConfusion h
  | cons kv t ih =>
    cases hk : k == kv.1 with
    | true =>
      simp only [List.lookup, hk] at h
      have hkk : k = kv.1 := beq_iff_eq.mp hk
      have hv : kv.2 = v := Option.some.inj h
      have : (k, v) = kv := by
        cases kv
        simp at hkk hv
        simp [hkk, hv]
      rw [this]
      exact List.mem_cons_self _ _
    | false =>
      simp only [List.lookup, hk] at h
      exact List.mem_cons_of_mem _ (ih h)

theorem lookup_isSome_of_mem (params : List (String × String)) (kv : String × String)
    (h : kv ∈ params) : (List.lookup kv.1 params).isSome = true := by
  induction params with
  | nil => exact absurd h (List.not_mem_nil _)
  | cons hd t ih =>
    cases hk : kv.1 == hd.1 with
    | true => simp [List.lookup, hk]
    | false =>
      simp only [List.lookup, hk]
      rcases List.mem_cons.mp h with h2 | h2
      · rw [h2] at hk
        simp at hk
      · exact ih h2

theorem lookup_collect_of_none (segs : List String) (params : List (String × String))
    (n : String) (h : List.lookup n params = none) :
    List.lookup n (collectPathParams segs params) = none := by
  induction segs with
  | nil => rfl
  | cons seg rest ih =>
    simp only [collectPathParams, List.filterMap_cons]
    by_cases hs : startsWithColon seg
    · cases hv : List.lookup (seg.drop 1) params with
      | none => simpa [hs, hv, collectPathParams] using ih
      | some v =>
        simp only [hs, hv, if_true, Option.map_some']
        have hne : (n == seg.drop 1) = false := by
          cases hnd : n == seg.drop 1 with
          | false => rfl
          | true =>
            have : n = seg.drop 1 := beq_iff_eq.mp hnd
            rw [this, hv] at h
            exact Option.noConfusion h
        simpa [List.lookup, hne, collectPathParams] using ih
    · simpa [hs, collectPathParams] using ih

theorem lookup_collect (segs : List String) (params : List (String × String))
    (n : String) (hmem : n ∈ placeholderNames segs) :
    List.lookup n (collectPathParams segs params) = List.lookup n params := by
  induction segs with
  | nil => exact absurd hmem (List.not_mem_nil _)
  | cons seg rest ih =>
    by_cases hs : startsWithColon seg
    · have hnames : placeholderNames (seg :: rest) = seg.drop 1 :: placeholderNames rest := by
        simp [placeholderNames, List.filterMap_cons, hs]
      rw [hnames] at hmem
      cases hv : List.lookup (seg.drop 1) params with
      | none =>
        rcases List.mem_cons.mp hmem with h2 | h2
        · rw [h2, hv]
          simp only [collectPathParams, List.filterMap_cons, hs, if_true, hv]
          exact lookup_collect_of_none rest params _ (h2 ▸ hv)
        · simp only [collectPathParams, List.filterMap_cons, hs, if_true, hv]
          exact ih h2
      | some v =>
        simp only [collectPathParams, List.filterMap_cons, hs, if_true, hv, Option.map_some']
        cases hn : n == seg.drop 1 with
        | true =>
          have : n = seg.drop 1 := beq_iff_eq.mp hn
          simp [List.lookup, hn, this, hv]
        | false =>
          rcases List.mem_cons.mp hmem with h2 | h2
          · rw [h2] at hn
            simp at hn
          · simp only [List.lookup, hn]
            exact ih h2
    · have hnames : placeholderNames (seg :: rest) = placeholderNames rest := by
        simp [placeholderNames, List.filterMap_cons, hs]
      rw [hnames] at hmem
      simp only [collectPathParams, List.filterMap_cons, hs, if_false]
      simpa [collectPathParams] using ih hmem

theorem build_url_path_loop_spec (segs : List String) :
    ∀ (m params : List (String × String)),
    (∀ n, n ∈ placeholderNames segs → List.lookup n m = List.lookup n params) →
    (placeholderNames segs).Nodup →
    build_url_path_loop segs m =
      match firstMissingPlaceholder segs params with
      | some p => .error (.MissingPathParameter p)
      | none => .ok (substituteSegments segs params) := by
  induction segs with
  | nil =>
    intro m params _ _
    rfl
  | cons seg rest ih =>
    intro m params hm hnd
    by_cases hs : startsWithColon seg
    · have hnames : placeholderNames (seg :: rest) = seg.drop 1 :: placeholderNames rest := by
        simp [placeholderNames, List.filterMap_cons, hs]
      have hlook : List.lookup (seg.drop 1) m = List.lookup (seg.drop 1) params :=
        hm _ (by rw [hnames]; exact List.mem_cons_self _ _)
      rw [hnames] at hnd
      cases hv : List.lookup (seg.drop 1) params with
      | none =>
        have hfm : firstMissingPlaceholder (seg :: rest) params = some (seg.drop 1) := by
          simp [firstMissingPlaceholder, hnames, List.find?_cons, hv]
        rw [hfm]
        simp [build_url_path_loop, hs, hlook.trans hv]
      | some v =>
        have hfm : firstMissingPlaceholder (seg :: rest) params =
            firstMissingPlaceholder rest params := by
          simp [firstMissingPlaceholder, hnames, List.find?_cons, hv]
        have hm2 : ∀ n, n ∈ placeholderNames rest →
            List.lookup n (m.eraseP (fun kv => kv.1 == seg.drop 1)) =
              List.lookup n params := by
          intro n hn
          have hne : n ≠ seg.drop 1 := by
            intro he
            exact (List.nodup_cons.mp hnd).1 (he ▸ hn)
          rw [lookup_eraseP_ne _ _ _ hne]
          exact hm n (by rw [hnames]; exact List.mem_cons_of_mem _ hn)
        have hrec := ih (m.eraseP (fun kv => kv.1 == seg.drop 1)) params hm2
          (List.nodup_cons.mp hnd).2
        rw [hfm]
        have hsub : substituteSegments (seg :: rest) params =
            v :: substituteSegments rest params := by
          simp [substituteSegments, hs, hv]
        cases hres : firstMissingPlaceholder rest params with
        | some p =>
          rw [hres] at hrec
          simp only [build_url_path_loop, hs, if_true, hlook.trans hv, hrec]
          rfl
        | none =>
          rw [hres] at hrec
          simp only [build_url_path_loop, hs, if_true, hlook.trans hv, hrec, hsub]
          rfl
    · have hnames : placeholderNames (seg :: rest) = placeholderNames rest := by
        simp [placeholderNames, List.filterMap_cons, hs]
      have hfm : firstMissingPlaceholder (seg :: rest) params =
          firstMissingPlaceholder rest params := by
        simp [firstMissingPlaceholder, hnames]
      have hrec := ih m params (fun n hn => hm n (by rw [hnames]; exact hn))
        (by rw [hnames] at hnd; exact hnd)
      rw [hfm]
      have hsub : substituteSegments (seg :: rest) params =
          seg :: substituteSegments rest params := by
        simp [substituteSegments, hs]
      cases hres : firstMissingPlaceholder rest params with
      | some p =>
        rw [hres] at hrec
        simp only [build_url_path_loop, hs, if_false, hrec]
        rfl
      | none =>
        rw [hres] at hrec
        simp only [build_url_path_loop, hs, if_false, hrec, hsub]
        rfl

theorem collect_any_eq (segs : List String) (params : List (String × String)) (k : String)
    (hk : (List.lookup k params).isSome = true) :
    (collectPathParams segs params).any (fun pp => pp.1 == k) =
      isPathPlaceholderName segs k := by
  induction segs with
  | nil => rfl
  | cons seg rest ih =>
    have hip : isPathPlaceholderName (seg :: rest) k =
        ((startsWithColon seg && (seg.drop 1 == k)) || isPathPlaceholderName rest k) := by
      simp [isPathPlaceholderName, List.any_cons]
    by_cases hs : startsWithColon seg
    · cases hv : List.lookup (seg.drop 1) params with
      | some v =>
        have hcoll : collectPathParams (seg :: rest) params =
            (seg.drop 1, v) :: collectPathParams rest params := by
          simp [collectPathParams, List.filterMap_cons, hs, hv]
        rw [hcoll, List.any_cons, ih, hip, hs]
        simp
      | none =>
        have hcoll : collectPathParams (seg :: rest) params =
            collectPathParams rest params := by
          simp [collectPathParams, List.filterMap_cons, hs, hv]
        have hne : (seg.drop 1 == k) = false := by
          cases hq : seg.drop 1 == k with
          | false => rfl
          | true =>
            exfalso
            have heq : seg.drop 1 = k := beq_iff_eq.mp hq
            rw [heq] at hv
            rw [hv] at hk
            exact Bool.noConfusion hk
        rw [hcoll, ih, hip, hs, hne]
        simp
    · have hcoll : collectPathParams (seg :: rest) params =
          collectPathParams rest params := by
        simp [collectPathParams, List.filterMap_cons, hs]
      have hsf : startsWithColon seg = false := by simpa using hs
      rw [hcoll, ih, hip, hsf]
      simp

theorem removePathParams_eq (segs : List String) (params : List (String × String)) :
    removePathParams params (collectPathParams segs params) =
      remainingParamsSpec segs params := by
  unfold removePathParams remainingParamsSpec
  apply List.filter_congr
  intro kv hkv
  rw [collect_any_eq segs params kv.1 (lookup_isSome_of_mem params kv hkv)]

theorem build_url_path_loop_error_shape (segs : List String) :
    ∀ (m : List (String × String)) (e : Error),
    build_url_path_loop segs m = .error e → ∃ p, e = .MissingPathParameter p := by
  induction segs with
  | nil => intro m e h; exact Except.noConfusion h
  | cons seg rest ih =>
    intro m e h
    by_cases hs : startsWithColon seg
    · simp only [build_url_path_loop, hs, if_true] at h
      cases hv : List.lookup (seg.drop 1) m with
      | none =>
        rw [hv] at h
        exact ⟨seg.drop 1, (Except.error.inj h).symm⟩
      | some v =>
        rw [hv] at h
        cases hrec : build_url_path_loop rest (m.eraseP fun kv => kv.1 == seg.drop 1) with
        | error e2 =>
          rw [hrec] at h
          exact (Except.error.inj h) ▸ ih _ e2 hrec
        | ok l =>
          rw [hrec] at h
          exact Except.noConfusion h
    · simp only [build_url_path_loop, hs, if_false] at h
      cases hrec : build_url_path_loop rest m with
      | error e2 =>
        rw [hrec] at h
        exact (Except.error.inj h) ▸ ih _ e2 hrec
      | ok l =>
        rw [hrec] at h
        exact Except.noConfusion h

theorem listNodupB_nodup : ∀ l : List String, listNodupB l = true → l.Nodup := by
  intro l
  induction l with
  | nil => intro _; exact List.nodup_nil
  | cons x t ih =>
    intro h
    rcases Bool.and_eq_true_iff.mp h with ⟨h1, h2⟩
    refine List.nodup_cons.mpr ⟨?_, ih h2⟩
    intro hmem
    have : t.contains x = true := List.elem_iff.mpr hmem
    rw [this] at h1
    exact Bool.noConfusion h1

theorem registry_placeholders_nodup :
    ∀ p ∈ METHOD_SETTINGS, (placeholderNames p.2.path_segments).Nodup := by
  have h : METHOD_SETTINGS.all
      (fun p => listNodupB (placeholderNames p.2.path_segments)) = true := by decide
  intro p hp
  exact listNodupB_nodup _ (List.all_eq_true.mp h p hp)

/-! ### Reductions of `prepareRequest` under a successful registry lookup -/

theorem prepareRequest_missing (name : String) (s : MethodSetting)
    (params : List (String × String)) (p : String)
    (hs : List.lookup name METHOD_SETTINGS = some s)
    (hmiss : firstMissingPlaceholder s.path_segments params = some p) :
    prepareRequest name (some params) = .error (.MissingPathParameter p) := by
  have hnd : (placeholderNames s.path_segments).Nodup :=
    registry_placeholders_nodup (name, s) (lookup_mem _ _ _ hs)
  have hloop := build_url_path_loop_spec s.path_segments
    (collectPathParams s.path_segments params) params
    (fun n hn => lookup_collect _ _ _ hn) hnd
  rw [hmiss] at hloop
  simp only [prepareRequest, hs, Option.getD_some, build_url_path, hloop]
  rfl

theorem prepareRequest_get_delete (name : String) (s : MethodSetting)
    (params : List (String × String))
    (hs : List.lookup name METHOD_SETTINGS = some s)
    (hres : firstMissingPlaceholder s.path_segments params = none)
    (hm : s.http_method = "GET" ∨ s.http_method = "DELETE") :
    prepareRequest name (some params) = .ok
      { http_method := s.http_method,
        url_for_request := urlWithQuerySpec s.path_segments params,
        url_for_signature := urlWithQuerySpec s.path_segments params,
        params_for_signature := none,
        params_for_body := none } := by
  have hnd : (placeholderNames s.path_segments).Nodup :=
    registry_placeholders_nodup (name, s) (lookup_mem _ _ _ hs)
  have hloop := build_url_path_loop_spec s.path_segments
    (collectPathParams s.path_segments params) params
    (fun n hn => lookup_collect _ _ _ hn) hnd
  rw [hres] at hloop
  have hrem := removePathParams_eq s.path_segments params
  simp only [prepareRequest, hs, Option.getD_some, build_url_path, hloop, hrem]
  rcases hm with hm | hm <;> rw [hm] <;> rfl

theorem prepareRequest_post (name : String) (s : MethodSetting)
    (params : List (String × String))
    (hs : List.lookup name METHOD_SETTINGS = some s)
    (hres : firstMissingPlaceholder s.path_segments params = none)
    (hm : s.http_method = "POST") :
    prepareRequest name (some params) = .ok
      { http_method := s.http_method,
        url_for_request := basePathSpec s.path_segments params,
        url_for_signature := basePathSpec s.path_segments params,
        params_for_signature :=
          if (remainingParamsSpec s.path_segments params).isEmpty then none
          else some (remainingParamsSpec s.path_segments params),
        params_for_body :=
          if (remainingParamsSpec s.path_segments params).isEmpty then none
          else some (remainingParamsSpec s.path_segments params) } := by
  have hnd : (placeholderNames s.path_segments).Nodup :=
    registry_placeholders_nodup (name, s) (lookup_mem _ _ _ hs)
  have hloop := build_url_path_loop_spec s.path_segments
    (collectPathParams s.path_segments params) params
    (fun n hn => lookup_collect _ _ _ hn) hnd
  rw [hres] at hloop
  have hrem := removePathParams_eq s.path_segments params
  simp only [prepareRequest, hs, Option.getD_some, build_url_path, hloop, hrem]
  rw [hm]
  rfl

theorem build_url_path_error_shape (s : MethodSetting) (m : List (String × String))
    (e : Error) (h : build_url_path s m = .error e) :
    ∃ p, e = .MissingPathParameter p := by
  unfold build_url_path at h
  cases hl : build_url_path_loop s.path_segments m with
  | error e2 =>
    rw [hl] at h
    exact (Except.error.inj h) ▸ build_url_path_loop_error_shape _ _ _ hl
  | ok l =>
    rw [hl] at h
    exact Except.noConfusion h

theorem registry_verbs :
    ∀ p ∈ METHOD_SETTINGS,
      p.2.http_method = "GET" ∨ p.2.http_method = "POST" ∨
        p.2.http_method = "DELETE" := by decide

theorem prepareRequest_error_shape (name : String)
    (params : Option (List (String × String))) (e : Error)
    (h : prepareRequest name params = .error e) :
    (∃ n, e = .MethodNotFound n) ∨ (∃ p, e = .MissingPathParameter p) := by
  cases hs : List.lookup name METHOD_SETTINGS with
  | none =>
    simp only [prepareRequest, hs] at h
    exact Or.inl ⟨name, (Except.error.inj h).symm⟩
  | some s =>
    simp only [prepareRequest, hs] at h
    cases hb : build_url_path s (collectPathParams s.path_segments (params.getD [])) with
    | error e2 =>
      rw [hb] at h
      exact Or.inr ((Except.error.inj h) ▸ build_url_path_error_shape _ _ _ hb)
    | ok base =>
      rw [hb] at h
      rcases registry_verbs (name, s) (lookup_mem _ _ _ hs) with hm | hm | hm <;>
        rw [hm] at h <;> exact Except.noConfusion h

/-! ### Character-level facts for header values and the signature alphabet -/

theorem all_flatMap {α β : Type} (l : List α) (f : α → List β) (p : β → Bool) :
    ((l.flatMap f).all p) = l.all (fun a => (f a).all p) := by
  induction l with
  | nil => rfl
  | cons a t ih => simp [List.flatMap_cons, List.all_append, ih]

theorem natDecDigits_lt (fuel : Nat) : ∀ n : Nat, ∀ d ∈ natDecDigits fuel n, d < 10 := by
  induction fuel with
  | zero => intro n d hd; exact absurd hd (List.not_mem_nil _)
  | succ f ih =>
    intro n d hd
    simp only [natDecDigits] at hd
    by_cases h : n < 10
    · rw [if_pos h] at hd
      rw [List.mem_singleton.mp hd]
      exact h
    · rw [if_neg h] at hd
      rcases List.mem_append.mp hd with hd | hd
      · exact ih _ d hd
      · rw [List.mem_singleton.mp hd]
        exact Nat.mod_lt _ (by omega)

theorem nonce_all_digits (n : Nat) :
    (natToDecimalString n).data.all Char.isDigit = true := by
  unfold natToDecimalString
  rw [List.all_eq_true]
  intro c hc
  rcases List.mem_map.mp hc with ⟨d, hd, rfl⟩
  have h10 := natDecDigits_lt _ _ d hd
  interval_cases d <;> decide

theorem nonce_headerValid (n : Nat) :
    headerValueValid (natToDecimalString n) = true := by
  unfold headerValueValid utf8Bytes natToDecimalString
  rw [all_flatMap, List.all_eq_true]
  intro c hc
  rcases List.mem_map.mp hc with ⟨d, hd, rfl⟩
  have h10 := natDecDigits_lt _ _ d hd
  interval_cases d <;> decide

theorem hexDigitChar_encode_valid (n : Nat) :
    (utf8EncodeChar (hexDigitChar n)).all headerValueByteValid = true := by
  have hm : n % 16 < 16 := Nat.mod_lt _ (by omega)
  unfold hexDigitChar
  revert hm
  generalize n % 16 = m
  intro hm
  interval_cases m <;> decide

theorem hexDigitChar_isLowerHex (n : Nat) : isLowerHexChar (hexDigitChar n) = true := by
  have hm : n % 16 < 16 := Nat.mod_lt _ (by omega)
  unfold hexDigitChar
  revert hm
  generalize n % 16 = m
  intro hm
  interval_cases m <;> decide

theorem hexOfBytes_headerValid (bs : List Nat) :
    headerValueValid (hexOfBytes bs) = true := by
  unfold headerValueValid utf8Bytes hexOfBytes
  rw [all_flatMap, List.all_eq_true]
  intro c hc
  rcases List.mem_flatMap.mp hc with ⟨b, _, hcb⟩
  unfold byteToHexChars at hcb
  rcases List.mem_cons.mp hcb with h1 | h1
  · rw [h1]; exact hexDigitChar_encode_valid _
  · rw [List.mem_singleton.mp h1]; exact hexDigitChar_encode_valid _

theorem hexOfBytes_lowerHex (bs : List Nat) :
    (hexOfBytes bs).data.all isLowerHexChar = true := by
  unfold hexOfBytes
  rw [List.all_eq_true]
  intro c hc
  rcases List.mem_flatMap.mp hc with ⟨b, _, hcb⟩
  unfold byteToHexChars at hcb
  rcases List.mem_cons.mp hcb with h1 | h1
  · rw [h1]; exact hexDigitChar_isLowerHex _
  · rw [List.mem_singleton.mp h1]; exact hexDigitChar_isLowerHex _

theorem flatMap_hex_length (bs : List Nat) :
    (bs.flatMap byteToHexChars).length = 2 * bs.length := by
  induction bs with
  | nil => rfl
  | cons b t ih =>
    simp only [List.flatMap_cons, List.length_append, ih, byteToHexChars]
    simp [List.length_cons]
    omega

theorem hexOfBytes_length (bs : List Nat) : (hexOfBytes bs).length = 2 * bs.length := by
  unfold hexOfBytes
  rw [String.length_mk]
  exact flatMap_hex_length bs

theorem sha256Bytes_length (m : List Nat) : (sha256Bytes m).length = 32 := by
  unfold sha256Bytes
  simp [beBytes]

theorem hmacSha256_length (k m : List Nat) : (hmacSha256 k m).length = 32 := by
  unfold hmacSha256
  exact sha256Bytes_length _

/-! ### Claim theorems -/

/-- C1: for every verb, signature URL, nonce, body-parameter map and
credentials, `generate_signature` returns the lowercase hexadecimal rendering
of the HMAC-SHA256, keyed by the UTF-8 bytes of the secret, of the UTF-8
bytes of the string joining exactly five fields with `#` in order: uppercased
verb, the signature URL verbatim, the API key, the nonce, and the body
digest. (Uppercasing is modelled for ASCII; every verb the SDK passes is
ASCII.) A concrete evaluation with a lowercase verb pins the computation. -/
theorem generate_signature_spec :
    (∀ (creds : ApiCredentials) (verb url nonce : String)
        (body : Option (List (String × String))),
      generate_signature creds verb url nonce body =
        .ok (hexOfBytes (hmacSha256 (utf8Bytes creds.api_secret)
          (utf8Bytes (canonicalSigningString verb url creds.api_key nonce
            (postParameterMd5 body)))))) ∧
    generate_signature { api_key := "mykey", api_secret := "mysecret" } "get"
        "https://api.bitcoin.de/v4/btceur/rates" "1700000000000000" none =
      .ok "cad0371cd8c533cc3e3185fa529a7d1f80ef4589d1bd1992d71ec32f42676140" := by
  constructor
  · intro creds verb url nonce body
    rfl
  · decide

/-- C2: for every registered method with all placeholders resolvable from the
bag, GET and DELETE use the full request URL (URL-encoded query string
included) as signature input and pass no body parameters to the signer, while
POST uses the bare base path and passes the remaining parameters as the
form-encoded body. -/
theorem prepareRequest_verb_split (name : String) (s : MethodSetting)
    (params : List (String × String))
    (hs : List.lookup name METHOD_SETTINGS = some s)
    (hres : firstMissingPlaceholder s.path_segments params = none) :
    ((s.http_method = "GET" ∨ s.http_method = "DELETE") →
      prepareRequest name (some params) = .ok
        { http_method := s.http_method,
          url_for_request := urlWithQuerySpec s.path_segments params,
          url_for_signature := urlWithQuerySpec s.path_segments params,
          params_for_signature := none,
          params_for_body := none }) ∧
    (s.http_method = "POST" →
      prepareRequest name (some params) = .ok
        { http_method := s.http_method,
          url_for_request := basePathSpec s.path_segments params,
          url_for_signature := basePathSpec s.path_segments params,
          params_for_signature :=
            if (remainingParamsSpec s.path_segments params).isEmpty then none
            else some (remainingParamsSpec s.path_segments params),
          params_for_body :=
            if (remainingParamsSpec s.path_segments params).isEmpty then none
            else some (remainingParamsSpec s.path_segments params) }) :=
  ⟨prepareRequest_get_delete name s params hs hres,
   prepareRequest_post name s params hs hres⟩

/-- C2 witness: a GET with one query parameter and a POST with two body
parameters, evaluated concretely. -/
theorem prepareRequest_verb_split_witness :
    prepareRequest "showOrderbook" (some [("trading_pair", "btceur"), ("type", "buy")]) =
      .ok { http_method := "GET",
            url_for_request := "https://api.bitcoin.de/v4/btceur/orderbook?type=buy",
            url_for_signature := "https://api.bitcoin.de/v4/btceur/orderbook?type=buy",
            params_for_signature := none,
            params_for_body := none } ∧
    prepareRequest "createOrder"
        (some [("trading_pair", "btceur"), ("type", "buy"), ("price", "100.00")]) =
      .ok { http_method := "POST",
            url_for_request := "https://api.bitcoin.de/v4/btceur/orders",
            url_for_signature := "https://api.bitcoin.de/v4/btceur/orders",
            params_for_signature := some [("type", "buy"), ("price", "100.00")],
            params_for_body := some [("type", "buy"), ("price", "100.00")] } := by
  constructor
  · have h := (prepareRequest_verb_split "showOrderbook"
      { http_method := "GET", path_segments := [":trading_pair", "orderbook"],
        trading_pair_parameter := some "trading_pair", currency_parameter := none,
        parameters := ["type"], id_parameter := none }
      [("trading_pair", "btceur"), ("type", "buy")] (by decide) (by decide)).1
      (Or.inl rfl)
    rw [h]
    decide
  · have h := (prepareRequest_verb_split "createOrder"
      { http_method := "POST", path_segments := [":trading_pair", "orders"],
        trading_pair_parameter := some "trading_pair", currency_parameter := none,
        parameters := ["type", "max_amount_currency_to_trade", "price"],
        id_parameter := none }
      [("trading_pair", "btceur"), ("type", "buy"), ("price", "100.00")]
      (by decide) (by decide)).2 rfl
    rw [h]
    decide

/-- C3: the body digest is the lowercase-hex MD5 of the form-encoded,
key-sorted parameter sequence, and is therefore invariant under permutation
of the parameter bag (bags with duplicate-free keys), as is the resulting
signature. -/
theorem postParameterMd5_perm_invariant (l1 l2 : List (String × String))
    (hp : l1.Perm l2) (hnd : (l1.map Prod.fst).Nodup) :
    (l1 ≠ [] → postParameterMd5 (some l1) =
      md5Hex (utf8Bytes (formUrlEncodePairs (sortByKey l1)))) ∧
    postParameterMd5 (some l1) = postParameterMd5 (some l2) ∧
    (∀ (creds : ApiCredentials) (verb url nonce : String),
      generate_signature creds verb url nonce (some l1) =
        generate_signature creds verb url nonce (some l2)) := by
  have hsort := sortByKey_eq_of_perm l1 l2 hp hnd
  have hemp : l1.isEmpty = l2.isEmpty := by
    have hlen := hp.length_eq
    cases l1 <;> cases l2 <;> simp_all
  have hmd5 : postParameterMd5 (some l1) = postParameterMd5 (some l2) := by
    simp only [postParameterMd5]
    rw [hemp, hsort]
  refine ⟨?_, hmd5, ?_⟩
  · intro hne
    have he : l1.isEmpty = false := by
      cases l1 with
      | nil => exact absurd rfl hne
      | cons a t => rfl
    simp only [postParameterMd5, he]
    rfl
  · intro creds verb url nonce
    simp only [generate_signature]
    rw [hmd5]

/-- C3 witness: swapping two body parameters leaves the digest unchanged; the
digest value itself is evaluated concretely. -/
theorem postParameterMd5_perm_invariant_witness :
    postParameterMd5 (some [("type", "buy"), ("price", "100.00")]) =
      postParameterMd5 (some [("price", "100.00"), ("type", "buy")]) ∧
    postParameterMd5 (some [("type", "buy"), ("price", "100.00")]) =
      "bff5087946545cb6249d68a9cec49cc1" := by
  have hperm : ([("type", "buy"), ("price", "100.00")] : List (String × String)).Perm
      [("price", "100.00"), ("type", "buy")] :=
    List.Perm.swap ("price", "100.00") ("type", "buy") []
  exact ⟨(postParameterMd5_perm_invariant _ _ hperm (by decide)).2.1, by decide⟩

/-- C4: with an absent or empty body-parameter map the digest fed into the
canonical string is the 32-character constant, which is exactly the MD5 of
the empty byte string; and the dispatcher passes no body parameters for
GET/DELETE and never passes an empty map for POST. -/
theorem postParameterMd5_empty :
    postParameterMd5 none = "d41d8cd98f00b204e9800998ecf8427e" ∧
    postParameterMd5 (some []) = "d41d8cd98f00b204e9800998ecf8427e" ∧
    md5Hex (utf8Bytes "") = "d41d8cd98f00b204e9800998ecf8427e" ∧
    (∀ (name : String) (s : MethodSetting) (params : Option (List (String × String)))
        (req : PreparedRequest),
      List.lookup name METHOD_SETTINGS = some s →
      (s.http_method = "GET" ∨ s.http_method = "DELETE") →
      prepareRequest name params = .ok req →
      req.params_for_signature = none) ∧
    (∀ (name : String) (s : MethodSetting) (params : Option (List (String × String)))
        (req : PreparedRequest),
      List.lookup name METHOD_SETTINGS = some s →
      s.http_method = "POST" →
      prepareRequest name params = .ok req →
      req.params_for_signature ≠ some []) := by
  refine ⟨rfl, rfl, by decide, ?_, ?_⟩
  · intro name s params0 req hs hm hok
    have hconv : prepareRequest name params0 =
        prepareRequest name (some (params0.getD [])) := by
      cases params0 <;> rfl
    rw [hconv] at hok
    cases hfm : firstMissingPlaceholder s.path_segments (params0.getD []) with
    | some p =>
      rw [prepareRequest_missing name s _ p hs hfm] at hok
      exact Except.noConfusion hok
    | none =>
      rw [prepareRequest_get_delete name s _ hs hfm hm] at hok
      have hrec := Except.ok.inj hok
      have hps : req.params_for_signature = none := by rw [← hrec]
      exact hps
  · intro name s params0 req hs hm hok
    have hconv : prepareRequest name params0 =
        prepareRequest name (some (params0.getD [])) := by
      cases params0 <;> rfl
    rw [hconv] at hok
    cases hfm : firstMissingPlaceholder s.path_segments (params0.getD []) with
    | some p =>
      rw [prepareRequest_missing name s _ p hs hfm] at hok
      exact Except.noConfusion hok
    | none =>
      rw [prepareRequest_post name s _ hs hfm hm] at hok
      have hrec := Except.ok.inj hok
      have hps : req.params_for_signature =
          (if (remainingParamsSpec s.path_segments (params0.getD [])).isEmpty then none
           else some (remainingParamsSpec s.path_segments (params0.getD []))) := by
        rw [← hrec]
      rw [hps]
      by_cases he : (remainingParamsSpec s.path_segments (params0.getD [])).isEmpty = true
      · rw [if_pos he]
        exact fun hc => Option.noConfusion hc
      · rw [if_neg he]
        intro hc
        have h0 := Option.some.inj hc
        rw [h0] at he
        exact he rfl

/-- C4 witness: a GET call and a parameterless POST call both reach the
signer without body parameters. -/
theorem postParameterMd5_empty_witness :
    (∃ req : PreparedRequest,
      prepareRequest "showRates" (some [("trading_pair", "btceur")]) = .ok req ∧
      req.params_for_signature = none) ∧
    (∃ req : PreparedRequest,
      prepareRequest "createOrder" (some [("trading_pair", "btceur")]) = .ok req ∧
      req.params_for_signature ≠ some []) := by
  have hC4 := postParameterMd5_empty
  have hs1 : List.lookup "showRates" METHOD_SETTINGS = some
      { http_method := "GET", path_segments := [":trading_pair", "rates"],
        trading_pair_parameter := some "trading_pair", currency_parameter := none,
        parameters := [], id_parameter := none } := by decide
  have hp1 : prepareRequest "showRates" (some [("trading_pair", "btceur")]) = .ok
      { http_method := "GET",
        url_for_request := "https://api.bitcoin.de/v4/btceur/rates",
        url_for_signature := "https://api.bitcoin.de/v4/btceur/rates",
        params_for_signature := none, params_for_body := none } := by decide
  have hs2 : List.lookup "createOrder" METHOD_SETTINGS = some
      { http_method := "POST", path_segments := [":trading_pair", "orders"],
        trading_pair_parameter := some "trading_pair", currency_parameter := none,
        parameters := ["type", "max_amount_currency_to_trade", "price"],
        id_parameter := none } := by decide
  have hp2 : prepareRequest "createOrder" (some [("trading_pair", "btceur")]) = .ok
      { http_method := "POST",
        url_for_request := "https://api.bitcoin.de/v4/btceur/orders",
        url_for_signature := "https://api.bitcoin.de/v4/btceur/orders",
        params_for_signature := none, params_for_body := none } := by decide
  exact ⟨⟨_, hp1, hC4.2.2.2.1 _ _ _ _ hs1 (Or.inl rfl) hp1⟩,
         ⟨_, hp2, hC4.2.2.2.2 _ _ _ _ hs2 rfl hp2⟩⟩

/-- C5 counterexample: with the bag empty, `showOrderDetails` has two missing
placeholders; the returned error names the first (`trading_pair`), not the
other missing placeholder (`order_id`), so the claim read at the placeholder
`:order_id` is false. -/
theorem missingPathParameter_counterexample :
    ∃ s : MethodSetting,
      List.lookup "showOrderDetails" METHOD_SETTINGS = some s ∧
      ":order_id" ∈ s.path_segments ∧
      List.lookup "order_id" ([] : List (String × String)) = none ∧
      do_request_build "showOrderDetails" (some []) 0
          { api_key := "k", api_secret := "s" } =
        .error (.MissingPathParameter "trading_pair") ∧
      Error.MissingPathParameter "trading_pair" ≠
        Error.MissingPathParameter "order_id" := by
  refine ⟨{ http_method := "GET",
            path_segments := [":trading_pair", "orders", "public", "details", ":order_id"],
            trading_pair_parameter := some "trading_pair", currency_parameter := none,
            parameters := [], id_parameter := some "order_id" },
    by decide, by decide, by decide, by decide, by decide⟩

/-- C5 (amended): for a registered method, when the bag lacks an entry for
some placeholder, `do_request` aborts before the send step with a
`MissingPathParameter` error naming the first such placeholder in path
order. -/
theorem do_request_missing_path_parameter (name : String) (s : MethodSetting)
    (params : List (String × String)) (p : String) (micros : Nat)
    (creds : ApiCredentials)
    (hs : List.lookup name METHOD_SETTINGS = some s)
    (hmiss : firstMissingPlaceholder s.path_segments params = some p) :
    prepareRequest name (some params) = .error (.MissingPathParameter p) ∧
    do_request_build name (some params) micros creds =
      .error (.MissingPathParameter p) := by
  have h1 := prepareRequest_missing name s params p hs hmiss
  refine ⟨h1, ?_⟩
  simp only [do_request_build, h1]

/-- C5 witness: `showOrderbook` with only the query parameter supplied aborts
naming `trading_pair`. -/
theorem do_request_missing_path_parameter_witness :
    prepareRequest "showOrderbook" (some [("type", "buy")]) =
      .error (.MissingPathParameter "trading_pair") ∧
    do_request_build "showOrderbook" (some [("type", "buy")]) 0
        { api_key := "k", api_secret := "s" } =
      .error (.MissingPathParameter "trading_pair") :=
  do_request_missing_path_parameter "showOrderbook"
    { http_method := "GET", path_segments := [":trading_pair", "orderbook"],
      trading_pair_parameter := some "trading_pair", currency_parameter := none,
      parameters := ["type"], id_parameter := none }
    [("type", "buy")] "trading_pair" 0 { api_key := "k", api_secret := "s" }
    (by decide) (by decide)

/-- C6: for every method name not present in the registry, the pipeline
aborts with `MethodNotFound` carrying that name before any further step. -/
theorem do_request_method_not_found (name : String)
    (params : Option (List (String × String))) (micros : Nat)
    (creds : ApiCredentials)
    (h : List.lookup name METHOD_SETTINGS = none) :
    do_request_build name params micros creds = .error (.MethodNotFound name) := by
  simp only [do_request_build, prepareRequest, h]

/-- C6 witness: the unregistered name `doesNotExist`. -/
theorem do_request_method_not_found_witness :
    do_request_build "doesNotExist" none 0 { api_key := "k", api_secret := "s" } =
      .error (.MethodNotFound "doesNotExist") :=
  do_request_method_not_found "doesNotExist" none 0
    { api_key := "k", api_secret := "s" } (by decide)

/-- C7: every non-success status yields the `Api` error carrying exactly the
status, the raw body verbatim, and the best-effort parse of the body; a
failed parse puts `none` in the detail field without changing the error
kind. -/
theorem handleResponse_api_error (status : Nat) (body : String)
    (h : statusIsSuccess status = false) :
    handleResponse status body =
      .error (.Api status body (parseApiErrorBody body)) ∧
    (parseApiErrorBody body = none →
      handleResponse status body = .error (.Api status body none)) := by
  have h1 : handleResponse status body =
      .error (.Api status body (parseApiErrorBody body)) := by
    unfold handleResponse
    rw [h]
    rfl
  exact ⟨h1, fun hn => by rw [h1, hn]⟩

/-- C7 witness: a 400 with a well-formed error body yields structured detail;
a 400 with a malformed body yields detail `none`, still as an `Api` error. -/
theorem handleResponse_api_error_witness :
    statusIsSuccess 400 = false ∧
    handleResponse 400 "\x7b\"errors\":[5],\"messages\":[\"missing parameter\"]\x7d" =
      .error (.Api 400 "\x7b\"errors\":[5],\"messages\":[\"missing parameter\"]\x7d"
        (some { errors := [5], messages := ["missing parameter"] })) ∧
    handleResponse 400 "not json" = .error (.Api 400 "not json" none) := by
  refine ⟨by decide, ?_, ?_⟩
  · rw [(handleResponse_api_error 400 _ (by decide)).1]
    rfl
  · rw [(handleResponse_api_error 400 _ (by decide)).1]
    rfl

/-- C8 counterexample: the empty secret — the candidate named by the claim —
does not abort signing: HMAC-SHA256 accepts keys of every length, so
`generate_signature` returns a signature and the `HmacKey` error branch is
dead. -/
theorem hmacKey_error_counterexample :
    generate_signature { api_key := "k", api_secret := "" } "GET" "u" "1" none =
      .ok "a2fcefe917c90ec8156d955a17622da5739e3c4d5932ded36644f4e678cad287" ∧
    (∀ e : Error,
      generate_signature { api_key := "k", api_secret := "" } "GET" "u" "1" none ≠
        .error e) := by
  constructor
  · decide
  · intro e h
    exact Except.noConfusion h

/-- C8 (amended): no secret of any length makes `generate_signature` fail;
it always returns a signature. -/
theorem generate_signature_never_fails (creds : ApiCredentials)
    (verb url nonce : String) (body : Option (List (String × String))) :
    ∃ sig, generate_signature creds verb url nonce body = .ok sig :=
  ⟨_, rfl⟩

/-- C9: no top-level success-response shape has a usable serializer: the
misc/withdrawals shapes (including `ShowRatesResponse`) derive only
`Deserialize`, and every remaining response embeds `ApiErrorDetail`, which
also lacks `Serialize` — so the claimed serialize-then-deserialize round
trip has no code to run against. -/
theorem response_shapes_not_serializable :
    successResponseShapes.all (fun n => !serializerCompiles 8 n) = true ∧
    "ShowRatesResponse" ∈ successResponseShapes ∧
    List.lookup "ShowRatesResponse" structDerivesSerialize = some false ∧
    List.lookup "ApiErrorDetail" structDerivesSerialize = some false ∧
    serializerCompiles 8 "ShowRatesResponse" = false ∧
    serializerCompiles 8 "ShowDepositResponse" = false ∧
    List.lookup "DepositDetails" structDerivesSerialize = some true := by decide

/-- C10: the nonce is all ASCII decimal digits, every signature is exactly 64
lowercase hexadecimal characters, and the `InvalidHeaderValue` abort can only
be caused by the API key header value. -/
theorem header_values_always_valid :
    (∀ micros : Nat, (natToDecimalString micros).data.all Char.isDigit = true) ∧
    (∀ (creds : ApiCredentials) (verb url nonce : String)
        (body : Option (List (String × String))) (sig : String),
      generate_signature creds verb url nonce body = .ok sig →
      sig.length = 64 ∧ sig.data.all isLowerHexChar = true) ∧
    (∀ (name : String) (params : Option (List (String × String))) (micros : Nat)
        (creds : ApiCredentials),
      do_request_build name params micros creds = .error .InvalidHeaderValue →
      headerValueValid creds.api_key = false) := by
  refine ⟨nonce_all_digits, ?_, ?_⟩
  · intro creds verb url nonce body sig h
    simp only [generate_signature] at h
    have hsig := Except.ok.inj h
    constructor
    · rw [← hsig, hexOfBytes_length, hmacSha256_length]
    · rw [← hsig]
      exact hexOfBytes_lowerHex _
  · intro name params micros creds h
    cases hp : prepareRequest name params with
    | error e =>
      simp only [do_request_build, hp] at h
      have he := Except.error.inj h
      rcases prepareRequest_error_shape _ _ _ hp with ⟨n2, hn⟩ | ⟨p2, hn⟩ <;>
        rw [hn] at he <;> exact Error.noConfusion he
    | ok p =>
      simp only [do_request_build, hp, generate_signature] at h
      cases hk : headerValueValid creds.api_key with
      | false => rfl
      | true =>
        simp only [hk, nonce_headerValid, hexOfBytes_headerValid, if_true] at h
        exact Except.noConfusion h

/-- C10 witness: a concrete nonce, a concrete signature, and a concrete
`InvalidHeaderValue` abort caused by a control character inside the API
key. -/
theorem header_values_always_valid_witness :
    ((natToDecimalString 1700000000000000).data.all Char.isDigit = true) ∧
    ("cad0371cd8c533cc3e3185fa529a7d1f80ef4589d1bd1992d71ec32f42676140".length = 64 ∧
      "cad0371cd8c533cc3e3185fa529a7d1f80ef4589d1bd1992d71ec32f42676140".data.all
        isLowerHexChar = true) ∧
    headerValueValid "k\x00" = false := by
  have h := header_values_always_valid
  refine ⟨h.1 1700000000000000, ?_, ?_⟩
  · exact h.2.1 { api_key := "mykey", api_secret := "mysecret" } "GET"
      "https://api.bitcoin.de/v4/btceur/rates" "1700000000000000" none _ (by decide)
  · exact h.2.2 "showRates" (some [("trading_pair", "btceur")]) 0
      { api_key := "k\x00", api_secret := "s" } (by decide)

example : md5Hex [] = "d41d8cd98f00b204e9800998ecf8427e" := by decide
example : md5Hex (utf8Bytes "abc") = "900150983cd24fb0d6963f7d28e17f72" := by decide
example : hexOfBytes (sha256Bytes []) =
    "e3b0c44298fc1c149afbf4c8996fb92427ae41e4649b934ca495991b7852b855" := by decide
example : hexOfBytes (sha256Bytes (utf8Bytes "abc")) =
    "ba7816bf8f01cfea414140de5dae2223b00361a396177a9cb410ff61f20015ad" := by decide
example : hexOfBytes (hmacSha256 (utf8Bytes "key")
      (utf8Bytes "The quick brown fox jumps over the lazy dog")) =
    "f7bc83f430538424b13298e6aa6fb143ef4d59a14946175997479dbc2d1a3cd8" := by decide
example : hexOfBytes (hmacSha256 [] []) =
    "b613679a0814d9ec772f95d778c35fc5ff1697c493715653c6c712144292c5ad" := by decide

end BitcoinDe
